import Mathlib

/-!
Verification of the Portalyze rubric engine and scoring components.

The HTML document is modelled as a tree of nodes (the result of the external
BeautifulSoup parse, which the spec treats as an unspecified parser
capability).  All engine operations are translated from
`backend/app/services/rubric_engine.py`, the pass-ratio score from
`backend/app/services/analyzer.py`, and the weighted-criteria report from
`backend/app/services/portfolio_scorer.py`.

Python strings are modelled as `List Char` (`Str`), with the handful of
string operations the engine uses (`in`, `startswith`, `strip`, `lower`,
`split`, slicing) defined below so that every check is executable in the
kernel.  Fixed dictionary keys and tag names stay as Lean `String` literals.
-/

set_option maxRecDepth 100000

namespace Portalyze

/-- Python strings, as character lists (kernel-computable). -/
abbrev Str := List Char

/-- Literal coercion from a Lean string literal. -/
def S (s : String) : Str := s.data

/-- `s.lower()` (ASCII case folding, which covers the engine's inputs). -/
def lowerS (s : Str) : Str := s.map Char.toLower

/-- `s.startswith(p)`. -/
def startsWithS : Str → Str → Bool
  | _, [] => true
  | [], _ :: _ => false
  | c :: cs, d :: ds => c = d && startsWithS cs ds

/-- `needle in hay` (substring containment, for a nonempty needle). -/
def containsS (hay needle : Str) : Bool :=
  startsWithS hay needle ||
    match hay with
    | [] => false
    | _ :: t => containsS t needle

/-- `any(w in s for w in words)`. -/
def containsAnyS (s : Str) (needles : List Str) : Bool :=
  needles.any (fun w => containsS s w)

/-- Case-insensitive substring test: models `re.search(lit, s, re.I)` for a
literal pattern with no metacharacters. -/
def containsCI (hay needle : Str) : Bool :=
  containsS (lowerS hay) (lowerS needle)

/-- `s.strip()`. -/
def trimS (s : Str) : Str :=
  ((s.dropWhile Char.isWhitespace).reverse.dropWhile Char.isWhitespace).reverse

/-- Helper for `splitWS`, accumulating the current word reversed. -/
def splitWSAux : Str → Str → List Str
  | [], acc => if acc.isEmpty then [] else [acc.reverse]
  | c :: cs, acc =>
      if c.isWhitespace then
        if acc.isEmpty then splitWSAux cs [] else acc.reverse :: splitWSAux cs []
      else splitWSAux cs (c :: acc)

/-- `s.split()`: split on whitespace runs, dropping empty pieces. -/
def splitWS (s : Str) : List Str := splitWSAux s []

/-- Decimal rendering of a count, for feedback strings. -/
def natToStr (n : Nat) : Str := Nat.toDigits 10 n

mutual
/-- One node of the parsed HTML tree: a tag element (with its `id`
attribute, its class list as BeautifulSoup splits it, the remaining
attributes, and children) or a text node.  `uid` models CPython object
identity (`id(node)`), used by the card detector for deduplication. -/
inductive Node where
  | elem (tag : String) (uid : Nat) (idAttr : Option Str)
      (classes : List Str) (attrs : List (String × Str))
      (children : NodeList)
  | text (s : Str)

inductive NodeList where
  | nil
  | cons (n : Node) (ns : NodeList)
end

def NodeList.ofList : List Node → NodeList
  | [] => .nil
  | n :: ns => .cons n (NodeList.ofList ns)

def Node.tagOf : Node → String
  | .elem t _ _ _ _ _ => t
  | .text _ => ""

def Node.uidOf : Node → Nat
  | .elem _ u _ _ _ _ => u
  | .text _ => 0

def Node.idOf : Node → Option Str
  | .elem _ _ i _ _ _ => i
  | .text _ => none

def Node.classesOf : Node → List Str
  | .elem _ _ _ cs _ _ => cs
  | .text _ => []

def Node.isElem : Node → Bool
  | .elem _ _ _ _ _ _ => true
  | .text _ => false

/-- `node.get(attr)` for attributes other than id/class. -/
def Node.getAttr (n : Node) (key : String) : Option Str :=
  match n with
  | .elem _ _ _ _ attrs _ => (attrs.find? (fun p => p.1 = key)).map (·.2)
  | .text _ => none

/-- `node.get(attr, '')`. -/
def Node.getAttrD (n : Node) (key : String) : Str :=
  (n.getAttr key).getD []

/-- Tag name is one of the given names (BeautifulSoup name-list filter). -/
def Node.tagIn (n : Node) (tags : List String) : Bool :=
  n.isElem && tags.any (fun t => n.tagOf = t)

mutual
/-- `get_text()`: concatenation of all descendant text, in document order. -/
def Node.getText : Node → Str
  | .text s => s
  | .elem _ _ _ _ _ ch => NodeList.getTextList ch

def NodeList.getTextList : NodeList → Str
  | .nil => []
  | .cons n ns => Node.getText n ++ NodeList.getTextList ns
end

mutual
/-- `get_text(strip=True)`: each text fragment stripped, concatenated. -/
def Node.getTextStrip : Node → Str
  | .text s => trimS s
  | .elem _ _ _ _ _ ch => NodeList.getTextStripList ch

def NodeList.getTextStripList : NodeList → Str
  | .nil => []
  | .cons n ns => Node.getTextStrip n ++ NodeList.getTextStripList ns
end

/-- `tag.string`: the sole text child, descending through lone element
children; `None` when the node has several children. -/
def Node.stringOf : Node → Option Str
  | .text s => some s
  | .elem _ _ _ _ _ (.cons c .nil) => Node.stringOf c
  | .elem _ _ _ _ _ _ => none

/-- A located node: the node together with its ancestor chain in the
document, nearest ancestor first.  This carries the information Python holds
implicitly through parent pointers. -/
abbrev Loc := Node × List Node

mutual
/-- Pre-order listing (document order) of a subtree, each node paired with
its ancestors. -/
def Node.locsOf (anc : List Node) : Node → List Loc
  | .text s => [(.text s, anc)]
  | .elem t u i cs a ch =>
      (Node.elem t u i cs a ch, anc) ::
        NodeList.locsOfList (Node.elem t u i cs a ch :: anc) ch

def NodeList.locsOfList (anc : List Node) : NodeList → List Loc
  | .nil => []
  | .cons n ns => Node.locsOf anc n ++ NodeList.locsOfList anc ns
end

/-- All nodes of a document (list of top-level nodes), in document order:
the search space of `soup.find_all`. -/
def docLocs (doc : List Node) : List Loc :=
  doc.flatMap (Node.locsOf [])

/-- Descendants of a located node (excluding the node itself), in document
order: the search space of `tag.find_all`. -/
def subLocs (l : Loc) : List Loc :=
  match l.1 with
  | .text _ => []
  | .elem t u i cs a ch =>
      NodeList.locsOfList (Node.elem t u i cs a ch :: l.2) ch

/-- Children accessor. -/
def Node.children : Node → NodeList
  | .elem _ _ _ _ _ ch => ch
  | .text _ => .nil

/-- Direct children of a located node, as located nodes. -/
def childLocs (l : Loc) : List Loc :=
  goList l.1.children
where
  goList : NodeList → List Loc
    | .nil => []
    | .cons n ns => (n, l.1 :: l.2) :: goList ns

/-- `node.find_parent(tags)`: nearest ancestor whose tag is in `tags`,
returned with its own ancestor chain. -/
def findParentLoc (l : Loc) (tags : List String) : Option Loc :=
  go l.2
where
  go : List Node → Option Loc
    | [] => none
    | a :: rest => if a.tagIn tags then some (a, rest) else go rest

/-! ## Checklist structure (`_initialize_checklist`) -/

/-- One checklist entry: `{"pass": bool, "details": [str]}` (the spec calls
the details list "evidence"). -/
structure Item where
  pass : Bool
  details : List Str
deriving DecidableEq

/-- The checklist, an insertion-ordered string-keyed dictionary. -/
abbrev Checklist := List (String × Item)

/-- The fixed parameter list of `_initialize_checklist`, in source order. -/
def checklistParams : List String :=
  ["about_section", "about_name", "about_photo", "about_intro",
   "about_professional_photo",
   "projects_section", "projects_minimum", "projects_samples",
   "projects_deployed", "projects_links", "projects_finished",
   "projects_summary", "projects_hero_image", "projects_tech_stack",
   "skills_section", "skills_highlighted",
   "contact_section", "contact_linkedin", "contact_github",
   "links_correct", "responsive_design", "professional_url",
   "grammar_checked", "single_page_navbar", "no_design_issues",
   "external_links_new_tab"]

/-- `{param: {"pass": False, "details": []} for param in params}`. -/
def initChecklist : Checklist :=
  checklistParams.map (fun p => (p, ⟨false, []⟩))

/-- `checklist[k]["pass"] = b` (keys are only ever updated, never added). -/
def setPass (c : Checklist) (k : String) (b : Bool) : Checklist :=
  c.map (fun p => if p.1 = k then (p.1, { p.2 with pass := b }) else p)

/-- `checklist[k]["details"].append(s)`. -/
def addDetail (c : Checklist) (k : String) (s : Str) : Checklist :=
  c.map (fun p =>
    if p.1 = k then (p.1, { p.2 with details := p.2.details ++ [s] }) else p)

/-- The key set (in insertion order) of a checklist. -/
def keysOf (c : Checklist) : List String := c.map Prod.fst

/-- Dictionary lookup of a whole entry. -/
def getItem : Checklist → String → Option Item
  | [], _ => none
  | p :: t, k => if p.1 = k then some p.2 else getItem t k

/-- Lookup of an entry's pass flag. -/
def getPass (c : Checklist) (k : String) : Option Bool :=
  (getItem c k).map (·.pass)

/-! ## Keyword tables (`RubricEngine.__init__`) -/

def techKeywords : List Str :=
  [S "react", S "javascript", S "typescript", S "css", S "html", S "node",
   S "express", S "mongo", S "mysql", S "postgres", S "tailwind", S "chakra",
   S "bootstrap", S "material-ui", S "redux", S "next", S "vite", S "webpack",
   S "sass", S "vue", S "angular", S "python", S "django", S "flask",
   S "java", S "spring", S "docker", S "kubernetes", S "aws", S "azure",
   S "gcp"]

def aboutKeywords : List Str :=
  [S "about", S "aboutme", S "about-me", S "about_me", S "bio",
   S "biography", S "introduction", S "intro", S "profile", S "whoami",
   S "who-am-i"]

def projectsKeywords : List Str :=
  [S "project", S "projects", S "portfolio", S "work", S "works", S "case",
   S "cases", S "showcase", S "my-work", S "mywork", S "my-projects"]

def skillsKeywords : List Str :=
  [S "skill", S "skills", S "tech", S "techstack", S "tech-stack", S "stack",
   S "expertise", S "technologies", S "technology", S "toolset",
   S "abilities"]

def contactKeywords : List Str :=
  [S "contact", S "contacts", S "reach", S "reachout", S "reach-out",
   S "connect", S "getintouch", S "get-in-touch", S "social", S "touch",
   S "contactme", S "contact-me"]

/-! ## Section locator (`_find_section`) -/

/-- Strategy 1: exact id match, first keyword that hits wins. -/
def strat1 (doc : List Node) (keywords : List Str) : Option Loc :=
  keywords.findSome? (fun kw =>
    (docLocs doc).find? (fun l => l.1.idOf = some kw))

/-- Strategy 2: exact class match (class list contains the keyword). -/
def strat2 (doc : List Node) (keywords : List Str) : Option Loc :=
  keywords.findSome? (fun kw =>
    (docLocs doc).find? (fun l => l.1.classesOf.any (fun c => c = kw)))

/-- Strategy 3: id or class contains the keyword (case-insensitive); for
each keyword the id search runs before the class search. -/
def strat3 (doc : List Node) (keywords : List Str) : Option Loc :=
  keywords.findSome? (fun kw =>
    match (docLocs doc).find? (fun l =>
        match l.1.idOf with
        | some i => containsCI i kw
        | none => false) with
    | some l => some l
    | none =>
        (docLocs doc).find? (fun l =>
          l.1.classesOf.any (fun c => containsCI c kw)))

/-- Strategy 4: heading text equals/contains a keyword (or is contained in
one); the heading's nearest section/div/article/main ancestor is returned
when its stripped text is more than twice the heading's, else the heading. -/
def strat4 (doc : List Node) (keywords : List Str) : Option Loc :=
  ((docLocs doc).filter
      (fun l => l.1.tagIn ["h1", "h2", "h3", "h4", "h5", "h6"])).findSome?
    (fun heading =>
      let headingText := lowerS heading.1.getTextStrip
      if keywords.any (fun kw =>
          containsS headingText kw || containsS kw headingText) then
        match findParentLoc heading ["section", "div", "article", "main"] with
        | some parent =>
            if parent.1.getTextStrip.length > headingText.length * 2 then
              some parent
            else some heading
        | none => some heading
      else none)

/-- Strategy 5: `data-section` attribute equals the keyword. -/
def strat5 (doc : List Node) (keywords : List Str) : Option Loc :=
  keywords.findSome? (fun kw =>
    (docLocs doc).find? (fun l => l.1.getAttr "data-section" = some kw))

/-- Strategy 6: a top-level section/div/article whose first 200 characters
of text contain a keyword (`find_all(..., recursive=False)` on the soup
searches only top-level nodes). -/
def strat6 (doc : List Node) (keywords : List Str) : Option Loc :=
  ((doc.filter (fun n => n.tagIn ["section", "div", "article"])).find?
      (fun n =>
        let firstPart := (lowerS n.getText).take 200
        keywords.any (fun kw => containsS firstPart kw))).map
    (fun n => (n, []))

/-- The locator's strategies indexed in cascade order. -/
def stratAt : Nat → List Node → List Str → Option Loc
  | 0 => strat1
  | 1 => strat2
  | 2 => strat3
  | 3 => strat4
  | 4 => strat5
  | 5 => strat6
  | _ + 6 => fun _ _ => none

/-- `_find_section`: the six strategies tried in order, first success wins;
`none` when all miss. -/
def findSection (doc : List Node) (keywords : List Str) : Option Loc :=
  match strat1 doc keywords with
  | some l => some l
  | none =>
  match strat2 doc keywords with
  | some l => some l
  | none =>
  match strat3 doc keywords with
  | some l => some l
  | none =>
  match strat4 doc keywords with
  | some l => some l
  | none =>
  match strat5 doc keywords with
  | some l => some l
  | none => strat6 doc keywords

/-! ## Project card detector (`_find_project_cards`) -/

/-- `card.find(['h1'..'h6'])` is truthy. -/
def hasHeadingIn (l : Loc) : Bool :=
  (subLocs l).any (fun d => d.1.tagIn ["h1", "h2", "h3", "h4", "h5", "h6"])

/-- `card.find('a', href=True)` is truthy. -/
def hasLinkIn (l : Loc) : Bool :=
  (subLocs l).any (fun d => d.1.tagIn ["a"] && (d.1.getAttr "href").isSome)

/-- `card.find('img')` is truthy. -/
def hasImgIn (l : Loc) : Bool :=
  (subLocs l).any (fun d => d.1.tagIn ["img"])

/-- The class regex patterns of detection strategy 1, each expanded into the
literal strings it can match (`X[-_]?Y` matches `XY`, `X-Y` or `X_Y` as a
substring, case-insensitively). -/
def cardClassPatterns : List (List Str) :=
  [[S "projectcard", S "project-card", S "project_card"],
   [S "projectitem", S "project-item", S "project_item"],
   [S "project"],
   [S "card"],
   [S "portfolioitem", S "portfolio-item", S "portfolio_item"],
   [S "workitem", S "work-item", S "work_item"],
   [S "casestudy", S "case-study", S "case_study"],
   [S "item"],
   [S "projectbox", S "project-box", S "project_box"],
   [S "col"]]

/-- Some class of the node matches one of the pattern's variants. -/
def classMatchesCI (n : Node) (variants : List Str) : Bool :=
  n.classesOf.any (fun c => variants.any (fun v => containsCI c v))

/-- Accumulator state: accepted cards in order, and the identity set
(`seen_cards`). -/
abbrev CardState := List Loc × List Nat

/-- Add a card, recording its identity. -/
def pushCard (st : CardState) (card : Loc) : CardState :=
  (st.1 ++ [card], st.2 ++ [card.1.uidOf])

/-- Strategy 1: common project-card class patterns, validated by substantial
text plus any of heading/link/image. -/
def cardsStage1 (sec : Loc) : CardState :=
  cardClassPatterns.foldl
    (fun st pattern =>
      let potential := (subLocs sec).filter (fun l =>
        l.1.tagIn ["div", "article", "section", "li"] &&
          classMatchesCI l.1 pattern)
      potential.foldl
        (fun st card =>
          if st.2.contains card.1.uidOf then st
          else
            let hasHeading := hasHeadingIn card
            let hasLink := hasLinkIn card
            let hasImage := hasImgIn card
            let hasContent := card.1.getTextStrip.length > 15
            if hasContent && (hasHeading || hasLink || hasImage) then
              pushCard st card
            else st)
        st)
    ([], [])

/-- Strategy 2: repeated div/article/li structures with text in (20, 2000)
and any of image/link/heading; accepted only when at least two qualify. -/
def cardsStage2 (sec : Loc) (st : CardState) : CardState :=
  let divsWithContent := (subLocs sec).filter (fun l =>
    l.1.tagIn ["div", "article", "li"])
  let contentStructures := divsWithContent.filter (fun d =>
    if st.2.contains d.1.uidOf then false
    else
      let hasImage := hasImgIn d
      let hasLink := hasLinkIn d
      let hasHeading := hasHeadingIn d
      let textLength := d.1.getTextStrip.length
      20 < textLength && textLength < 2000 &&
        (hasImage || hasLink || hasHeading))
  if contentStructures.length ≥ 2 then
    contentStructures.foldl
      (fun st s => if st.2.contains s.1.uidOf then st else pushCard st s) st
  else st

/-- Strategy 3: grid/flex containers with 2–10 element children, accepting
children that have a link and more than 30 characters of text. -/
def cardsStage3 (sec : Loc) (st : CardState) : CardState :=
  let gridContainers := (subLocs sec).filter (fun l =>
    l.1.tagIn ["div", "section"] &&
      classMatchesCI l.1 [S "grid", S "flex", S "row", S "container", S "columns"])
  gridContainers.foldl
    (fun st grid =>
      let directChildren := (childLocs grid).filter (fun c => c.1.isElem)
      if 2 ≤ directChildren.length && directChildren.length ≤ 10 then
        directChildren.foldl
          (fun st child =>
            if st.2.contains child.1.uidOf then st
            else
              let hasLink := hasLinkIn child
              let textLength := child.1.getTextStrip.length
              if hasLink && textLength > 30 then pushCard st child else st)
          st
      else st)
    st

/-- Strategy 4: for each heading, its nearest container ancestor, accepted
when it also has a link, image, or demo/live/github/view button. -/
def cardsStage4 (sec : Loc) (st : CardState) : CardState :=
  let allHeadings := (subLocs sec).filter (fun l =>
    l.1.tagIn ["h1", "h2", "h3", "h4", "h5", "h6"])
  allHeadings.foldl
    (fun st heading =>
      match findParentLoc heading ["div", "article", "section", "li", "figure"] with
      | none => st
      | some parent =>
        if st.2.contains parent.1.uidOf then st
        else
          let hasLink := hasLinkIn parent
          let hasImage := hasImgIn parent
          let hasButton := (subLocs parent).any (fun d =>
            d.1.tagIn ["button", "a"] &&
              (match d.1.stringOf with
               | some s =>
                   containsAnyS (lowerS s) [S "demo", S "live", S "github", S "view"]
               | none => false))
          let textLength := parent.1.getTextStrip.length
          if 20 < textLength && textLength < 3000 &&
              (hasLink || hasImage || hasButton) then
            pushCard st parent
          else st)
    st

/-- Strategy 5: anchors whose href matches a code-hosting or deployment
domain; their container ancestor is accepted when it also has a heading or
image and more than 20 characters of text. -/
def cardsStage5 (sec : Loc) (st : CardState) : CardState :=
  let projectLinks := (subLocs sec).filter (fun l =>
    l.1.tagIn ["a"] &&
      (match l.1.getAttr "href" with
       | some h =>
           containsAnyS (lowerS h)
             [S "github.com", S "netlify", S "vercel", S "herokuapp",
              S "render.com", S "github.io"]
       | none => false))
  projectLinks.foldl
    (fun st link =>
      match findParentLoc link ["div", "li", "article", "section"] with
      | none => st
      | some parent =>
        if st.2.contains parent.1.uidOf then st
        else
          let hasHeading := hasHeadingIn parent
          let hasImage := hasImgIn parent
          let textLength := parent.1.getTextStrip.length
          if textLength > 20 && (hasHeading || hasImage) then
            pushCard st parent
          else st)
    st

/-- `_find_project_cards` before the final cap: stages 2–5 each run only
when fewer than 2 cards have been found so far. -/
def findCardsFull (sec : Loc) : List Loc :=
  let st := cardsStage1 sec
  let st := if st.1.length < 2 then cardsStage2 sec st else st
  let st := if st.1.length < 2 then cardsStage3 sec st else st
  let st := if st.1.length < 2 then cardsStage4 sec st else st
  let st := if st.1.length < 2 then cardsStage5 sec st else st
  st.1

/-- `_find_project_cards`: `return cards[:10]`. -/
def findCards (sec : Loc) : List Loc :=
  (findCardsFull sec).take 10

/-! ## Per-card analysis (`_analyze_project_card`) -/

/-- The structured result of `_analyze_project_card`. -/
structure CardAnalysis where
  hasImage : Bool
  hasDescription : Bool
  hasGithub : Bool
  hasDeployed : Bool
  hasTechStack : Bool
  feedback : Str
deriving DecidableEq

/-- The fixed deployment-domain list. -/
def deploymentDomains : List Str :=
  [S "vercel.app", S "netlify.app", S "herokuapp.com", S "render.com",
   S "github.io"]

/-- A link in the card whose href contains `github.com` but not `/repos/`. -/
def cardHasGithub (card : Loc) : Bool :=
  (subLocs card).any (fun d =>
    d.1.tagIn ["a"] && (d.1.getAttr "href").isSome &&
      (let href := d.1.getAttrD "href"
       containsS href (S "github.com") && !containsS href (S "/repos/")))

/-- A link in the card whose href contains a deployment domain. -/
def cardHasDeployed (card : Loc) : Bool :=
  (subLocs card).any (fun d =>
    d.1.tagIn ["a"] && (d.1.getAttr "href").isSome &&
      containsAnyS (d.1.getAttrD "href") deploymentDomains)

/-- The card's text mentions a known technology keyword. -/
def cardHasTechStack (card : Loc) : Bool :=
  containsAnyS (lowerS card.1.getText) techKeywords

/-- `_analyze_project_card`. -/
def analyzeProjectCard (card : Loc) (index : Nat) : CardAnalysis :=
  let hasImage := hasImgIn card
  let hasDescription := card.1.getTextStrip.length > 50
  let hasGithub := cardHasGithub card
  let hasDeployed := cardHasDeployed card
  let hasTechStack := cardHasTechStack card
  let issues : List Str :=
    (if !hasImage then [S "missing image"] else []) ++
    (if !hasGithub then [S "missing GitHub link"] else []) ++
    (if !hasDeployed then [S "missing deployed link"] else []) ++
    (if !hasTechStack then [S "missing tech stack"] else [])
  let feedback :=
    S "Project " ++ natToStr index ++ S ": " ++
      (if issues.isEmpty then S "[PASS] Complete"
       else List.intercalate (S ", ") issues)
  ⟨hasImage, hasDescription, hasGithub, hasDeployed, hasTechStack, feedback⟩

/-! ## About pass (`_evaluate_about_section`) -/

/-- First element of the document matching a predicate (`soup.find`). -/
def findInDoc (doc : List Node) (p : Loc → Bool) : Option Loc :=
  (docLocs doc).find? p

/-- A single-quote character, used in feedback strings. -/
def quoteS : Str := [Char.ofNat 39]

/-- Heading text looks like a name: 2–4 whitespace-separated words, each
starting with an uppercase letter. -/
def looksLikeName (l : Loc) : Bool :=
  let text := l.1.getTextStrip
  let words := splitWS text
  2 ≤ words.length && words.length ≤ 4 &&
    words.all (fun w =>
      match w with
      | [] => true
      | ch :: _ => ch.isUpper)

/-- The name check: first h1/h2 whose text looks like a name. -/
def aboutNameBlock (doc : List Node) (c : Checklist) : Checklist :=
  match ((docLocs doc).filter (fun l => l.1.tagIn ["h1", "h2"])).find?
      looksLikeName with
  | some h =>
      addDetail (setPass c "about_name" true) "about_name"
        (S "[PASS] Name found: " ++ h.1.getTextStrip)
  | none => addDetail c "about_name" (S "[FAIL] Name not clearly displayed")

/-- The names of the priority containers searched for a profile photo. -/
def priorityContainerNames : List Str :=
  [S "header", S "hero", S "main", S "banner", S "intro", S "top"]

/-- The priority sections: the about section, then, for each container
name, the first header/section/div with a matching class and the first with
a matching id. -/
def prioritySections (doc : List Node) (sec : Loc) : List Loc :=
  [sec] ++ priorityContainerNames.flatMap (fun nm =>
    (findInDoc doc (fun l =>
        l.1.tagIn ["header", "section", "div"] &&
          l.1.classesOf.any (fun cl => containsCI cl nm))).toList ++
    (findInDoc doc (fun l =>
        l.1.tagIn ["header", "section", "div"] &&
          (match l.1.idOf with
           | some i => containsCI i nm
           | none => false))).toList)

/-- `section.find_all('img')`. -/
def imgsIn (l : Loc) : List Loc :=
  (subLocs l).filter (fun d => d.1.tagIn ["img"])

/-- The profile-photo likelihood score of an image. -/
def imgScore (img : Loc) : Int :=
  let alt := lowerS (img.1.getAttrD "alt")
  let src := lowerS (img.1.getAttrD "src")
  let s : Int := 0
  let s := if containsAnyS alt
      [S "profile", S "photo", S "picture", S "portrait", S "avatar",
       S "headshot", S "me", S "myself", S "author", S "face"] then
    s + 3 else s
  let s := if containsAnyS src
      [S "profile", S "photo", S "avatar", S "headshot", S "portrait",
       S "me", S "about", S "author", S "person", S "face", S "user"] then
    s + 2 else s
  let s := if !alt.isEmpty && alt.length > 3 then s + 1 else s
  let s :=
    match findParentLoc img ["div", "figure", "section"] with
    | some parent =>
        let parentClass := lowerS (List.intercalate (S " ") parent.1.classesOf)
        if containsAnyS parentClass
            [S "profile", S "photo", S "avatar", S "about", S "hero",
             S "author"] then s + 2 else s
    | none => s
  let s := if containsAnyS (alt ++ src)
      [S "icon", S "logo", S "decoration", S "background", S "banner",
       S "pattern"] then s - 3 else s
  let s := if containsAnyS (alt ++ src)
      [S "project-", S "work-", S "portfolio-item", S "screenshot"] then
    s - 1 else s
  s

/-- Insert into a descending-sorted list after all entries with an equal or
larger score (so the overall sort is stable, like Python's). -/
def insertDesc (x : Int × Loc) : List (Int × Loc) → List (Int × Loc)
  | [] => [x]
  | y :: ys => if y.1 < x.1 then x :: y :: ys else y :: insertDesc x ys

/-- `candidates.sort(key=lambda x: x[0], reverse=True)`: stable descending
sort by score. -/
def sortDescByScore (l : List (Int × Loc)) : List (Int × Loc) :=
  l.foldl (fun acc x => insertDesc x acc) []

/-- `s[:k] + '...' if len(s) > k else s`. -/
def truncDots (s : Str) (k : Nat) : Str :=
  if s.length > k then s.take k ++ S "..." else s

/-- The best profile-photo candidate of `_evaluate_about_section`. -/
def bestProfileImg (allImgs : List Loc) : Option Loc :=
  let profileCandidates := allImgs.map (fun img => (imgScore img, img))
  let sorted := sortDescByScore profileCandidates
  match sorted with
  | [] => none
  | (s0, i0) :: _ =>
    if s0 > -1 then some i0
    else if allImgs.length > 0 then
      match (sorted.take 3).find? (fun p =>
          let imgSrc := lowerS (p.2.1.getAttrD "src")
          !containsAnyS imgSrc
            [S "project-screenshot", S "work-sample", S "case-study-img"]) with
      | some p => some p.2
      | none => allImgs.head?
    else none

/-- The photo checks (`about_photo`, `about_professional_photo`). -/
def aboutPhotoBlock (doc : List Node) (sec : Loc) (c : Checklist) : Checklist :=
  let priorityImgs := (prioritySections doc sec).flatMap imgsIn
  let allImgs := if !priorityImgs.isEmpty then priorityImgs
                 else (docLocs doc).filter (fun d => d.1.tagIn ["img"])
  let searchLocation :=
    if !priorityImgs.isEmpty then S "priority sections" else S "entire page"
  match bestProfileImg allImgs with
  | some best =>
      let src := truncDots (best.1.getAttrD "src") 80
      let c := addDetail (setPass c "about_photo" true) "about_photo"
        (S "[PASS] Photo found: " ++ src)
      let alt := lowerS (best.1.getAttrD "alt")
      if containsAnyS alt
          [S "profile", S "photo", S "picture", S "portrait", S "avatar",
           S "headshot"] then
        addDetail (setPass c "about_professional_photo" true)
          "about_professional_photo"
          (S "[PASS] Professional photo alt text detected")
      else if !alt.isEmpty && alt.length > 3 then
        addDetail (setPass c "about_professional_photo" true)
          "about_professional_photo"
          (S "[PASS] Profile image found with description")
      else
        addDetail c "about_professional_photo"
          (S "[WARNING] Photo alt text could be more descriptive")
  | none =>
      addDetail c "about_photo"
        (S "[FAIL] No photo found (searched " ++ searchLocation ++ S ")")

/-- The introduction check: a paragraph of the section of more than 50
characters. -/
def aboutIntroBlock (sec : Loc) (c : Checklist) : Checklist :=
  let paragraphs := (subLocs sec).filter (fun l => l.1.tagIn ["p"])
  match paragraphs.find? (fun p => p.1.getTextStrip.length > 50) with
  | some p =>
      let text := p.1.getTextStrip
      addDetail (setPass c "about_intro" true) "about_intro"
        (S "[PASS] Introduction: " ++ truncDots text 80)
  | none =>
      addDetail c "about_intro"
        (S "[FAIL] No substantial introduction paragraph found")

/-- `_evaluate_about_section`. -/
def evalAbout (doc : List Node) (c : Checklist) : Checklist :=
  match findSection doc aboutKeywords with
  | some sec =>
      let c := addDetail (setPass c "about_section" true) "about_section"
        (S "[PASS] About section found")
      let c := aboutNameBlock doc c
      let c := aboutPhotoBlock doc sec c
      aboutIntroBlock sec c
  | none => addDetail c "about_section" (S "[FAIL] About section not found")

/-! ## Projects pass (`_evaluate_projects_section`) -/

/-- `_evaluate_projects_section`. -/
def evalProjects (doc : List Node) (c : Checklist) : Checklist :=
  match findSection doc projectsKeywords with
  | none =>
      addDetail c "projects_section" (S "[FAIL] Projects section not found")
  | some sec =>
      let c := addDetail (setPass c "projects_section" true) "projects_section"
        (S "[PASS] Projects section found")
      let projectCards := findCards sec
      let projectCount := projectCards.length
      let c := addDetail c "projects_section"
        (S "Found " ++ natToStr projectCount ++ S " project card(s)")
      let c :=
        if projectCount ≥ 3 then
          addDetail (setPass c "projects_minimum" true) "projects_minimum"
            (S "[PASS] Has " ++ natToStr projectCount ++
              S " projects (requirement: ≥3)")
        else
          addDetail c "projects_minimum"
            (S "[FAIL] Only " ++ natToStr projectCount ++
              S " project(s) found. Add at least " ++
              natToStr (3 - projectCount) ++ S " more.")
      let hasSamples := projectCount > 0
      let analyses :=
        (List.enumFrom 1 projectCards).map (fun p =>
          analyzeProjectCard p.2 p.1)
      let c := analyses.foldl
        (fun c a => addDetail c "projects_samples" a.feedback) c
      let hasImages := analyses.any (·.hasImage)
      let hasDescriptions := analyses.any (·.hasDescription)
      let hasGithub := analyses.any (·.hasGithub)
      let hasDeployed := analyses.any (·.hasDeployed)
      let hasTechStack := analyses.any (·.hasTechStack)
      let c := setPass c "projects_samples" hasSamples
      let c := setPass c "projects_hero_image" hasImages
      let c := setPass c "projects_summary" hasDescriptions
      let c := setPass c "projects_links" hasGithub
      let c := setPass c "projects_deployed" hasDeployed
      let c := setPass c "projects_tech_stack" hasTechStack
      let c := setPass c "projects_finished" (hasDeployed && hasDescriptions)
      let c :=
        if hasImages then
          addDetail c "projects_hero_image" (S "[PASS] Projects have images")
        else
          addDetail c "projects_hero_image" (S "[FAIL] Add images to projects")
      let c :=
        if hasGithub then
          addDetail c "projects_links" (S "[PASS] GitHub links found")
        else
          addDetail c "projects_links" (S "[FAIL] Add GitHub repository links")
      let c :=
        if hasDeployed then
          addDetail c "projects_deployed" (S "[PASS] Deployed links found")
        else
          addDetail c "projects_deployed" (S "[FAIL] Add deployed/live links")
      if hasTechStack then
        addDetail c "projects_tech_stack" (S "[PASS] Tech stack mentioned")
      else
        addDetail c "projects_tech_stack" (S "[FAIL] List tech stack for projects")

/-! ## Skills pass (`_evaluate_skills_section`) -/

/-- `_evaluate_skills_section`.  The badge regex has no `re.I` flag (it is
case-sensitive); the skill-item regex is case-insensitive. -/
def evalSkills (doc : List Node) (c : Checklist) : Checklist :=
  match findSection doc skillsKeywords with
  | none => addDetail c "skills_section" (S "[FAIL] Skills section not found")
  | some sec =>
      let c := addDetail (setPass c "skills_section" true) "skills_section"
        (S "[PASS] Skills section found")
      let hasIcons := (subLocs sec).any (fun l => l.1.tagIn ["svg", "i", "img"])
      let hasBadges := (subLocs sec).any (fun l =>
        l.1.isElem && l.1.classesOf.any (fun cl =>
          containsAnyS cl [S "badge", S "tag", S "chip", S "skill", S "tech"]))
      let hasTechKeywords := containsAnyS (lowerS sec.1.getText) techKeywords
      let skillItems := (subLocs sec).filter (fun l =>
        l.1.tagIn ["li", "div", "span"] &&
          l.1.classesOf.any (fun cl =>
            containsCI cl (S "skill") || containsCI cl (S "tech")))
      let hasMultipleItems := skillItems.length ≥ 3
      let hasList := (subLocs sec).any (fun l => l.1.tagIn ["ul", "ol"])
      if hasIcons || hasBadges || hasTechKeywords || hasMultipleItems ||
          hasList then
        let highlights :=
          (if hasIcons then [S "icons"] else []) ++
          (if hasBadges then [S "badges"] else []) ++
          (if hasTechKeywords then [S "tech keywords"] else []) ++
          (if hasMultipleItems then
            [natToStr skillItems.length ++ S " skill items"] else []) ++
          (if hasList then [S "structured list"] else [])
        addDetail (setPass c "skills_highlighted" true) "skills_highlighted"
          (S "[PASS] Skills highlighted with " ++
            List.intercalate (S ", ") highlights)
      else
        addDetail c "skills_highlighted"
          (S "[FAIL] Skills not visually highlighted. Consider adding icons or badges.")

/-! ## Contact pass (`_evaluate_contact_section`) -/

/-- `soup.find_all('a', href=True)`. -/
def allHrefLinks (doc : List Node) : List Loc :=
  (docLocs doc).filter (fun l => l.1.tagIn ["a"] && (l.1.getAttr "href").isSome)

/-- `_evaluate_contact_section`: section presence, plus LinkedIn/GitHub
links scanned over the whole page. -/
def evalContact (doc : List Node) (c : Checklist) : Checklist :=
  let c :=
    match findSection doc contactKeywords with
    | some _ =>
        addDetail (setPass c "contact_section" true) "contact_section"
          (S "[PASS] Contact section found")
    | none =>
        addDetail c "contact_section" (S "[FAIL] Contact section not found")
  let allLinks := allHrefLinks doc
  let linkedinFound := allLinks.any (fun l =>
    containsS (lowerS (l.1.getAttrD "href")) (S "linkedin.com"))
  let githubFound := allLinks.any (fun l =>
    let href := lowerS (l.1.getAttrD "href")
    containsS href (S "github.com") && !containsS href (S "/repos/"))
  let c :=
    if linkedinFound then
      addDetail (setPass c "contact_linkedin" true) "contact_linkedin"
        (S "[PASS] LinkedIn profile link found")
    else
      addDetail c "contact_linkedin" (S "[FAIL] Add LinkedIn profile link")
  if githubFound then
    addDetail (setPass c "contact_github" true) "contact_github"
      (S "[PASS] GitHub profile link found")
  else
    addDetail c "contact_github" (S "[FAIL] Add GitHub profile link")

/-! ## URL parsing (CPython `urllib.parse.urlsplit`, scheme and netloc) -/

/-- Scheme and network location of a URL. -/
structure UrlParts where
  scheme : Str
  netloc : Str
deriving DecidableEq

/-- Split a character list at the first occurrence of a character. -/
def splitAtChar? (s : Str) (c : Char) : Option (Str × Str) :=
  match s with
  | [] => none
  | d :: ds =>
      if d = c then some ([], ds)
      else (splitAtChar? ds c).map (fun p => (d :: p.1, p.2))

/-- A valid URL scheme: a letter followed by letters, digits, `+`, `-`, `.`. -/
def schemeValid (pre : Str) : Bool :=
  match pre with
  | [] => false
  | ch :: cs =>
      ch.isAlpha && cs.all (fun d => d.isAlphanum || d = '+' || d = '-' || d = '.')

/-- Models CPython's `urllib.parse.urlsplit` restricted to the fields the
engine reads: the lowercased scheme, the netloc (text between `//` and the
next `/`, `?` or `#`), and the `ValueError("Invalid IPv6 URL")` raised when
the netloc has an unmatched bracket. -/
def urlsplitPy (url : Str) : Except Str UrlParts :=
  let p :=
    match splitAtChar? url ':' with
    | some (pre, post) =>
        if schemeValid pre then (lowerS pre, post) else (([] : Str), url)
    | none => (([] : Str), url)
  let netloc :=
    if startsWithS p.2 (S "//") then
      (p.2.drop 2).takeWhile (fun c => c ≠ '/' && c ≠ '?' && c ≠ '#')
    else []
  if (netloc.contains '[' && !netloc.contains ']') ||
      (netloc.contains ']' && !netloc.contains '[') then
    Except.error (S "Invalid IPv6 URL")
  else Except.ok ⟨p.1, netloc⟩

/-! ## Technical pass (`_evaluate_technical`) -/

/-- The `links_correct` check: a link is flagged when its stripped href is
empty or starts with `javascript:`/`void`; skipped entirely when the page
has no links. -/
def linksCorrectBlock (doc : List Node) (c : Checklist) : Checklist :=
  let allLinks := allHrefLinks doc
  if allLinks.isEmpty then c
  else
    let invalidLinks := allLinks.foldl
      (fun acc link =>
        let href := trimS (link.1.getAttrD "href")
        if href.isEmpty then
          let linkText := link.1.getTextStrip.take 40
          let display :=
            if !linkText.isEmpty then
              quoteS ++ S "(empty)" ++ quoteS ++ S " (text: " ++ linkText ++ S ")"
            else quoteS ++ S "(empty)" ++ quoteS
          acc ++ [display]
        else
          let isValid :=
            startsWithS href (S "http://") || startsWithS href (S "https://") ||
            startsWithS href (S "#") ||
            startsWithS href (S "mailto:") || startsWithS href (S "tel:") ||
            startsWithS href (S "/") ||
            startsWithS href (S "./") || startsWithS href (S "../") ||
            !(startsWithS href (S "javascript:") || startsWithS href (S "void"))
          if !isValid then
            let linkText := link.1.getTextStrip.take 40
            let display :=
              if !linkText.isEmpty then
                quoteS ++ href ++ quoteS ++ S " (text: " ++ linkText ++ S ")"
              else quoteS ++ href ++ quoteS
            acc ++ [display]
          else acc)
      []
    if invalidLinks.length = 0 then
      addDetail (setPass c "links_correct" true) "links_correct"
        (S "[PASS] All links appear valid")
    else if invalidLinks.length = 1 then
      addDetail c "links_correct"
        (S "[WARNING] 1 link may be invalid: " ++ invalidLinks.headD [])
    else
      let c := addDetail c "links_correct"
        (S "[WARNING] " ++ natToStr invalidLinks.length ++
          S " links may be invalid:")
      let c := (invalidLinks.take 5).foldl
        (fun c il => addDetail c "links_correct" (S "  • " ++ il)) c
      if invalidLinks.length > 5 then
        addDetail c "links_correct"
          (S "  • ... and " ++ natToStr (invalidLinks.length - 5) ++ S " more")
      else c

/-- The external-link list comprehension; `urlparse` may raise, which
propagates. -/
def externalLinksOf (doc : List Node) (url : Str) :
    Except Str (List Loc) :=
  (allHrefLinks doc).foldlM
    (fun acc l =>
      let href := l.1.getAttrD "href"
      if startsWithS href (S "http") || startsWithS href (S "https") then do
        let ph ← urlsplitPy href
        let pu ← urlsplitPy url
        pure (if ph.netloc ≠ pu.netloc then acc ++ [l] else acc)
      else pure acc)
    []

/-- Display string for an external link missing `target="_blank"`. -/
def externalLinkDisplay (l : Loc) : Str :=
  let href := truncDots (l.1.getAttrD "href") 60
  let linkText := l.1.getTextStrip.take 30
  if !linkText.isEmpty then
    quoteS ++ href ++ quoteS ++ S " (text: " ++ linkText ++ S ")"
  else quoteS ++ href ++ quoteS

/-- The `external_links_new_tab` reporting over the computed external-link
list. -/
def externalLinksReport (externalLinks : List Loc) (c : Checklist) :
    Checklist :=
  if externalLinks.isEmpty then c
  else
    let linksWithoutTarget := externalLinks.filter (fun l =>
      l.1.getAttr "target" ≠ some (S "_blank"))
    if linksWithoutTarget.length = 0 then
      addDetail (setPass c "external_links_new_tab" true)
        "external_links_new_tab" (S "[PASS] External links open in new tab")
    else if linksWithoutTarget.length = 1 then
      addDetail c "external_links_new_tab"
        (S "[WARNING] 1 external link missing target=" ++ quoteS ++
          S "_blank" ++ quoteS ++ S ": " ++
          externalLinkDisplay (linksWithoutTarget.headD
            (Node.text [], [])))
    else
      let c := addDetail c "external_links_new_tab"
        (S "[WARNING] " ++ natToStr linksWithoutTarget.length ++
          S " external links missing target=" ++ quoteS ++ S "_blank" ++
          quoteS ++ S ":")
      let c := (linksWithoutTarget.take 5).foldl
        (fun c l =>
          addDetail c "external_links_new_tab"
            (S "  • " ++ externalLinkDisplay l)) c
      if linksWithoutTarget.length > 5 then
        addDetail c "external_links_new_tab"
          (S "  • ... and " ++ natToStr (linksWithoutTarget.length - 5) ++
            S " more")
      else c

/-- The `external_links_new_tab` check: the comprehension may raise while
parsing a URL; otherwise the reporting is pure. -/
def externalLinksBlock (doc : List Node) (url : Str) (c : Checklist) :
    Except Str Checklist := do
  let externalLinks ← externalLinksOf doc url
  pure (externalLinksReport externalLinks c)

/-- The responsive-design indicators. -/
def responsiveBlock (doc : List Node) (htmlContent : Str) (c : Checklist) :
    Checklist :=
  let lower := lowerS htmlContent
  let responsiveIndicators : List Bool :=
    [containsS lower (S "@media"),
     containsS lower (S "viewport"),
     ((docLocs doc).find? (fun l =>
        l.1.tagIn ["meta"] && l.1.getAttr "name" = some (S "viewport"))).isSome,
     containsAnyS htmlContent [S "sm:", S "md:", S "lg:", S "xl:", S "2xl:"]]
  if responsiveIndicators.any id then
    addDetail (setPass c "responsive_design" true) "responsive_design"
      (S "[PASS] Responsive design indicators found")
  else
    addDetail c "responsive_design"
      (S "[FAIL] No responsive design indicators. Add media queries or responsive framework.")

/-- The professional-URL verdict over the parsed URL. -/
def professionalReport (parsed : UrlParts) (url : Str) (c : Checklist) :
    Checklist :=
  let isProfessional :=
    parsed.scheme = S "https" &&
      !startsWithS parsed.netloc (S "127.0.0.1") &&
      !startsWithS parsed.netloc (S "localhost")
  let c := setPass c "professional_url" isProfessional
  if isProfessional then
    addDetail c "professional_url" (S "[PASS] Professional URL: " ++ url)
  else
    addDetail c "professional_url"
      (S "[WARNING] Consider deploying to a professional URL (HTTPS)")

/-- The professional-URL check; `urlparse(url)` may raise, which
propagates. -/
def professionalBlock (url : Str) (c : Checklist) : Except Str Checklist := do
  let parsed ← urlsplitPy url
  pure (professionalReport parsed url c)

/-- The navbar check: a nav/header containing at least one anchor. -/
def navbarBlock (doc : List Node) (c : Checklist) : Checklist :=
  match (docLocs doc).find? (fun l => l.1.tagIn ["nav", "header"]) with
  | some nav =>
      let navLinks := (subLocs nav).filter (fun l => l.1.tagIn ["a"])
      if !navLinks.isEmpty then
        addDetail (setPass c "single_page_navbar" true) "single_page_navbar"
          (S "[PASS] Navigation bar with " ++ natToStr navLinks.length ++
            S " link(s)")
      else
        addDetail c "single_page_navbar"
          (S "[FAIL] Add navigation bar for better UX")
  | none =>
      addDetail c "single_page_navbar"
        (S "[FAIL] Add navigation bar for better UX")

/-- The design check: every image has nonempty alt text (vacuously passes
with no images). -/
def designBlock (doc : List Node) (c : Checklist) : Checklist :=
  let images := (docLocs doc).filter (fun l => l.1.tagIn ["img"])
  if !images.isEmpty then
    let withAlt := images.filter (fun im => !(im.1.getAttrD "alt").isEmpty)
    if withAlt.length = images.length then
      addDetail (setPass c "no_design_issues" true) "no_design_issues"
        (S "[PASS] All images have alt text")
    else
      addDetail c "no_design_issues"
        (S "[WARNING] " ++ natToStr (images.length - withAlt.length) ++
          S " image(s) missing alt text (accessibility issue)")
  else
    addDetail (setPass c "no_design_issues" true) "no_design_issues"
      (S "No images to check")

/-- `soup.get_text()` over the whole document. -/
def docText (doc : List Node) : Str :=
  (doc.map Node.getText).flatten

/-- The fixed typo list of the grammar check. -/
def commonTypos : List Str :=
  [S "teh", S "recieve", S "definately", S "seperate"]

/-- The grammar check. -/
def grammarBlock (doc : List Node) (c : Checklist) : Checklist :=
  let textContent := docText doc
  let foundTypos := commonTypos.filter (fun t =>
    containsS (lowerS textContent) t)
  if foundTypos.isEmpty then
    addDetail (setPass c "grammar_checked" true) "grammar_checked"
      (S "[PASS] No obvious typos detected")
  else
    addDetail c "grammar_checked"
      (S "[WARNING] Possible typos found: " ++
        List.intercalate (S ", ") foundTypos)

/-- `_evaluate_technical`: the eight blocks in source order; the external
link comprehension and the professional-URL parse may raise. -/
def evalTechnical (doc : List Node) (htmlContent url : Str) (c : Checklist) :
    Except Str Checklist := do
  let c := linksCorrectBlock doc c
  let c ← externalLinksBlock doc url c
  let c := responsiveBlock doc htmlContent c
  let c ← professionalBlock url c
  let c := navbarBlock doc c
  let c := designBlock doc c
  pure (grammarBlock doc c)

/-! ## `RubricEngine.evaluate` -/

/-- The main evaluation: initialize the checklist, run the five passes.
The source has no try/except, so an exception raised in a pass propagates
(modelled by the `Except` error). -/
def evaluate (doc : List Node) (htmlContent url : Str) :
    Except Str Checklist :=
  let c := initChecklist
  let c := evalAbout doc c
  let c := evalProjects doc c
  let c := evalSkills doc c
  let c := evalContact doc c
  evalTechnical doc htmlContent url c

/-- `PortfolioAnalyzer._run_rubric_analysis`: calls `evaluate`, catching any
exception and substituting the empty dict `{}` for the checklist. -/
def runRubricAnalysis (doc : List Node) (htmlContent url : Str) : Checklist :=
  match evaluate doc htmlContent url with
  | .ok c => c
  | .error _ => []

/-! ## Pass-ratio score (`PortfolioAnalyzer._calculate_score`) -/

/-- Python's `round` (banker's rounding, half to even) applied to the exact
rational `q / d`, for `d > 0`.  The source divides floats; the quotients the
engine produces are modelled exactly. -/
def pyRound (q d : Nat) : Nat :=
  let n := q / d
  let r := q % d
  if 2 * r < d then n
  else if d < 2 * r then n + 1
  else if n % 2 = 0 then n else n + 1

/-- `_calculate_score`: `round((passed / total) * 100)`, with 0 for an
empty checklist. -/
def calculateScore (c : Checklist) : Nat :=
  if c.isEmpty then 0
  else
    let total := c.length
    let passed := c.countP (fun p => p.2.pass)
    if total > 0 then pyRound (passed * 100) total else 0

/-! ## Weighted-criteria scorer (`PortfolioScorer`) -/

/-- The validation flags consumed by `PortfolioScorer`'s criteria checks. -/
structure ValidationResults where
  hasAllSections : Bool
  aboutComplete : Bool
  projectCount : Nat
  skillsComplete : Bool
  contactComplete : Bool
  linksComplete : Bool
  isResponsive : Bool
  urlIsProfessional : Bool
  designComplete : Bool
  externalComplete : Bool

/-- One scoring criterion: weight, max score, and the check function. -/
structure Criterion where
  weight : Nat
  maxScore : Nat
  check : ValidationResults → Nat

def sectionsCriterion : Criterion :=
  ⟨10, 10, fun r => if r.hasAllSections then 10 else 0⟩

def aboutCriterion : Criterion :=
  ⟨10, 10, fun r => if r.aboutComplete then 10 else 0⟩

def projectsCriterion : Criterion :=
  ⟨20, 20, fun r => min 20 (r.projectCount * 5)⟩

def skillsCriterion : Criterion :=
  ⟨10, 10, fun r => if r.skillsComplete then 10 else 0⟩

def contactCriterion : Criterion :=
  ⟨10, 10, fun r => if r.contactComplete then 10 else 0⟩

def linksCriterion : Criterion :=
  ⟨5, 5, fun r => if r.linksComplete then 5 else 0⟩

def responsivenessCriterion : Criterion :=
  ⟨10, 10, fun r => if r.isResponsive then 10 else 0⟩

def urlCriterion : Criterion :=
  ⟨5, 5, fun r => if r.urlIsProfessional then 5 else 0⟩

def designCriterion : Criterion :=
  ⟨10, 10, fun r => if r.designComplete then 10 else 0⟩

def externalCriterion : Criterion :=
  ⟨10, 10, fun r => if r.externalComplete then 10 else 0⟩

/-- `PortfolioScorer.__init__`: the criteria dictionary, in source order. -/
def scorerCriteria : List (String × Criterion) :=
  [("sections", sectionsCriterion),
   ("about_section", aboutCriterion),
   ("projects", projectsCriterion),
   ("skills", skillsCriterion),
   ("contact", contactCriterion),
   ("links", linksCriterion),
   ("responsiveness", responsivenessCriterion),
   ("url_professionalism", urlCriterion),
   ("design", designCriterion),
   ("external_links", externalCriterion)]

/-- The weight of a named criterion. -/
def criterionWeight (name : String) : Option Nat :=
  (scorerCriteria.find? (fun p => p.1 = name)).map (·.2.weight)

/-- The check value of a named criterion on given results. -/
def criterionValue (name : String) (r : ValidationResults) : Option Nat :=
  (scorerCriteria.find? (fun p => p.1 = name)).map (·.2.check r)

/-- `generate_detailed_report`'s weighted score of one criterion:
`(score / max_score) * weight` (exact, since every reachable score divides
evenly). -/
def weightedScore (cr : Criterion) (r : ValidationResults) : Nat :=
  cr.check r * cr.weight / cr.maxScore

/-- The report's `total_weight`. -/
def totalWeight : Nat := (scorerCriteria.map (fun p => p.2.weight)).sum

/-- The report's `total_score`. -/
def totalScore (r : ValidationResults) : Nat :=
  (scorerCriteria.map (fun p => weightedScore p.2 r)).sum

/-! ## Concrete documents used as witnesses -/

/-- Shorthand for a text node. -/
def tN (s : String) : Node := .text (S s)

/-- A project card: a div with class `project`, a heading, some text, and
optional extra children. -/
def projCard (uid : Nat) (extra : List Node) : Node :=
  .elem "div" uid none [S "project"] []
    (.ofList ([Node.elem "h3" (uid + 100) none [] []
                 (.ofList [tN "My Project Title Here"]),
               tN "A fine project with plenty of text."] ++ extra))

/-- A GitHub anchor. -/
def ghLink (uid : Nat) : Node :=
  .elem "a" uid none [] [("href", S "https://github.com/someone/repo")]
    (.ofList [tN "Code"])

/-- A projects section with three cards, exactly one holding a GitHub
link. -/
def projSection3 : Node :=
  Node.elem "section" 1 (some (S "projects")) [] []
    (.ofList [projCard 11 [], projCard 12 [ghLink 50], projCard 13 []])

def projectsDoc3 : List Node := [projSection3]

/-- The located projects section of `projectsDoc3`. -/
def proj3Sec : Loc := (projSection3, [])

/-- The checklist `evaluate` returns on `projectsDoc3`. -/
def proj3Checklist : Checklist :=
  runRubricAnalysis projectsDoc3 (S "") (S "https://example.com")

/-- The checklist `evaluate` returns on the empty page. -/
def emptyPageChecklist : Checklist :=
  runRubricAnalysis [] (S "") (S "https://example.com")

/-- A page whose only anchor has the malformed href `http://[`, on which
CPython's `urlparse` raises `ValueError("Invalid IPv6 URL")`. -/
def badHrefDoc : List Node :=
  [Node.elem "a" 1 none [] [("href", S "http://[")] .nil]

/-- Validation results with exactly one project and nothing else complete. -/
def oneProjectResults : ValidationResults :=
  ⟨false, false, 1, false, false, false, false, false, false, false⟩

/-- A section holding twelve plausible project cards. -/
def bigSection : Loc :=
  (Node.elem "section" 1 (some (S "projects")) [] []
    (.ofList ((List.range 12).map (fun i => projCard (10 + i) []))), [])

/-- A document that only locator strategy 3 (regex id/class) matches for
the about keywords: the id contains `about` but equals no keyword. -/
def strat3Doc : List Node :=
  [Node.elem "div" 7 (some (S "my-about-x")) [] [] .nil]

/-! ## Preservation lemmas for checklist updates -/

theorem keysOf_setPass (c : Checklist) (k : String) (b : Bool) :
    keysOf (setPass c k b) = keysOf c := by
  induction c with
  | nil => rfl
  | cons p t ih =>
      simp only [setPass, List.map_cons, keysOf] at *
      by_cases h : p.1 = k <;> simp [h, ih]

theorem keysOf_addDetail (c : Checklist) (k : String) (s : Str) :
    keysOf (addDetail c k s) = keysOf c := by
  induction c with
  | nil => rfl
  | cons p t ih =>
      simp only [addDetail, List.map_cons, keysOf] at *
      by_cases h : p.1 = k <;> simp [h, ih]

theorem getItem_setPass_ne (c : Checklist) (k' : String) (b : Bool)
    (k : String) (h : k ≠ k') :
    getItem (setPass c k' b) k = getItem c k := by
  induction c with
  | nil => rfl
  | cons p t ih =>
      by_cases h1 : p.1 = k' <;> by_cases h2 : p.1 = k <;>
        simp_all [setPass, getItem]

theorem getItem_addDetail_ne (c : Checklist) (k' : String) (s : Str)
    (k : String) (h : k ≠ k') :
    getItem (addDetail c k' s) k = getItem c k := by
  induction c with
  | nil => rfl
  | cons p t ih =>
      by_cases h1 : p.1 = k' <;> by_cases h2 : p.1 = k <;>
        simp_all [addDetail, getItem]

theorem getPass_addDetail (c : Checklist) (k' : String) (s : Str)
    (k : String) :
    getPass (addDetail c k' s) k = getPass c k := by
  induction c with
  | nil => rfl
  | cons p t ih =>
      by_cases h1 : p.1 = k' <;> by_cases h2 : p.1 = k <;>
        simp_all [addDetail, getItem, getPass]

theorem getPass_setPass_ne (c : Checklist) (k' : String) (b : Bool)
    (k : String) (h : k ≠ k') :
    getPass (setPass c k' b) k = getPass c k := by
  simp [getPass, getItem_setPass_ne c k' b k h]

theorem getPass_setPass_mem (c : Checklist) (k : String) (b : Bool)
    (h : k ∈ keysOf c) :
    getPass (setPass c k b) k = some b := by
  induction c with
  | nil => simp [keysOf] at h
  | cons p t ih =>
      by_cases h1 : p.1 = k
      · simp [setPass, getItem, getPass, h1]
      · simp only [keysOf, List.map_cons, List.mem_cons] at h
        rcases h with h | h
        · exact absurd h.symm h1
        · simpa [setPass, getPass, getItem, h1] using ih h

theorem getItem_detfold_ne {α : Type} (l : List α) (k : String) (f : α → Str)
    (c : Checklist) (k' : String) (h : k' ≠ k) :
    getItem (l.foldl (fun c x => addDetail c k (f x)) c) k' = getItem c k' := by
  induction l generalizing c with
  | nil => rfl
  | cons x t ih =>
      simp only [List.foldl_cons]
      rw [ih, getItem_addDetail_ne _ _ _ _ h]

theorem getPass_detfold {α : Type} (l : List α) (k : String) (f : α → Str)
    (c : Checklist) (k' : String) :
    getPass (l.foldl (fun c x => addDetail c k (f x)) c) k' = getPass c k' := by
  induction l generalizing c with
  | nil => rfl
  | cons x t ih =>
      simp only [List.foldl_cons]
      rw [ih, getPass_addDetail]

theorem keysOf_detfold {α : Type} (l : List α) (k : String) (f : α → Str)
    (c : Checklist) :
    keysOf (l.foldl (fun c x => addDetail c k (f x)) c) = keysOf c := by
  induction l generalizing c with
  | nil => rfl
  | cons x t ih =>
      simp only [List.foldl_cons]
      rw [ih, keysOf_addDetail]

theorem getItem_ite (P : Prop) [Decidable P] (a b : Checklist) (k : String) :
    getItem (if P then a else b) k = if P then getItem a k else getItem b k := by
  split <;> rfl

theorem getPass_ite (P : Prop) [Decidable P] (a b : Checklist) (k : String) :
    getPass (if P then a else b) k = if P then getPass a k else getPass b k := by
  split <;> rfl

theorem keysOf_ite (P : Prop) [Decidable P] (a b : Checklist) :
    keysOf (if P then a else b) = if P then keysOf a else keysOf b := by
  split <;> rfl

theorem keysOf_initChecklist : keysOf initChecklist = checklistParams := by
  decide

/-! ## Per-pass preservation lemmas -/

theorem getItem_aboutNameBlock_ne (doc : List Node) (c : Checklist)
    (k : String) (h : k ≠ "about_name") :
    getItem (aboutNameBlock doc c) k = getItem c k := by
  unfold aboutNameBlock
  split <;> simp [getItem_addDetail_ne, getItem_setPass_ne, h]

theorem keysOf_aboutNameBlock (doc : List Node) (c : Checklist) :
    keysOf (aboutNameBlock doc c) = keysOf c := by
  unfold aboutNameBlock
  split <;> simp [keysOf_addDetail, keysOf_setPass]

theorem getItem_aboutPhotoBlock_ne (doc : List Node) (sec : Loc)
    (c : Checklist) (k : String) (h1 : k ≠ "about_photo")
    (h2 : k ≠ "about_professional_photo") :
    getItem (aboutPhotoBlock doc sec c) k = getItem c k := by
  unfold aboutPhotoBlock
  simp only [getItem_ite]
  split <;>
    simp [getItem_addDetail_ne, getItem_setPass_ne, getItem_ite, h1, h2]

theorem keysOf_aboutPhotoBlock (doc : List Node) (sec : Loc) (c : Checklist) :
    keysOf (aboutPhotoBlock doc sec c) = keysOf c := by
  unfold aboutPhotoBlock
  simp only [keysOf_ite]
  split <;> simp [keysOf_addDetail, keysOf_setPass, keysOf_ite]

theorem getItem_aboutIntroBlock_ne (sec : Loc) (c : Checklist)
    (k : String) (h : k ≠ "about_intro") :
    getItem (aboutIntroBlock sec c) k = getItem c k := by
  unfold aboutIntroBlock
  simp only [getItem_ite]
  split <;> simp [getItem_addDetail_ne, getItem_setPass_ne, h]

theorem keysOf_aboutIntroBlock (sec : Loc) (c : Checklist) :
    keysOf (aboutIntroBlock sec c) = keysOf c := by
  unfold aboutIntroBlock
  simp only [keysOf_ite]
  split <;> simp [keysOf_addDetail, keysOf_setPass]

/-- The keys the about pass writes. -/
def aboutWrittenKeys : List String :=
  ["about_section", "about_name", "about_photo", "about_intro",
   "about_professional_photo"]

theorem getItem_evalAbout_ne (doc : List Node) (c : Checklist) (k : String)
    (h : ∀ x ∈ aboutWrittenKeys, k ≠ x) :
    getItem (evalAbout doc c) k = getItem c k := by
  have h1 : k ≠ "about_section" := h _ (by simp [aboutWrittenKeys])
  have h2 : k ≠ "about_name" := h _ (by simp [aboutWrittenKeys])
  have h3 : k ≠ "about_photo" := h _ (by simp [aboutWrittenKeys])
  have h4 : k ≠ "about_intro" := h _ (by simp [aboutWrittenKeys])
  have h5 : k ≠ "about_professional_photo" := h _ (by simp [aboutWrittenKeys])
  unfold evalAbout
  split
  · rw [getItem_aboutIntroBlock_ne _ _ _ h4,
      getItem_aboutPhotoBlock_ne _ _ _ _ h3 h5,
      getItem_aboutNameBlock_ne _ _ _ h2,
      getItem_addDetail_ne _ _ _ _ h1, getItem_setPass_ne _ _ _ _ h1]
  · rw [getItem_addDetail_ne _ _ _ _ h1]

theorem keysOf_evalAbout (doc : List Node) (c : Checklist) :
    keysOf (evalAbout doc c) = keysOf c := by
  unfold evalAbout
  split
  · rw [keysOf_aboutIntroBlock, keysOf_aboutPhotoBlock, keysOf_aboutNameBlock,
      keysOf_addDetail, keysOf_setPass]
  · rw [keysOf_addDetail]

/-- The keys the projects pass writes. -/
def projectsWrittenKeys : List String :=
  ["projects_section", "projects_minimum", "projects_samples",
   "projects_deployed", "projects_links", "projects_finished",
   "projects_summary", "projects_hero_image", "projects_tech_stack"]

theorem getItem_evalProjects_ne (doc : List Node) (c : Checklist) (k : String)
    (h : ∀ x ∈ projectsWrittenKeys, k ≠ x) :
    getItem (evalProjects doc c) k = getItem c k := by
  have h1 : k ≠ "projects_section" := h _ (by simp [projectsWrittenKeys])
  have h2 : k ≠ "projects_minimum" := h _ (by simp [projectsWrittenKeys])
  have h3 : k ≠ "projects_samples" := h _ (by simp [projectsWrittenKeys])
  have h4 : k ≠ "projects_deployed" := h _ (by simp [projectsWrittenKeys])
  have h5 : k ≠ "projects_links" := h _ (by simp [projectsWrittenKeys])
  have h6 : k ≠ "projects_finished" := h _ (by simp [projectsWrittenKeys])
  have h7 : k ≠ "projects_summary" := h _ (by simp [projectsWrittenKeys])
  have h8 : k ≠ "projects_hero_image" := h _ (by simp [projectsWrittenKeys])
  have h9 : k ≠ "projects_tech_stack" := h _ (by simp [projectsWrittenKeys])
  unfold evalProjects
  split
  · rw [getItem_addDetail_ne _ _ _ _ h1]
  · simp [getItem_addDetail_ne, getItem_setPass_ne, getItem_ite,
      getItem_detfold_ne, h1, h2, h3, h4, h5, h6, h7, h8, h9]

theorem keysOf_evalProjects (doc : List Node) (c : Checklist) :
    keysOf (evalProjects doc c) = keysOf c := by
  unfold evalProjects
  split
  · rw [keysOf_addDetail]
  · simp [keysOf_addDetail, keysOf_setPass, keysOf_ite, keysOf_detfold]

/-- The keys the skills pass writes. -/
def skillsWrittenKeys : List String := ["skills_section", "skills_highlighted"]

theorem getItem_evalSkills_ne (doc : List Node) (c : Checklist) (k : String)
    (h : ∀ x ∈ skillsWrittenKeys, k ≠ x) :
    getItem (evalSkills doc c) k = getItem c k := by
  have h1 : k ≠ "skills_section" := h _ (by simp [skillsWrittenKeys])
  have h2 : k ≠ "skills_highlighted" := h _ (by simp [skillsWrittenKeys])
  unfold evalSkills
  split <;>
    simp [getItem_addDetail_ne, getItem_setPass_ne, getItem_ite, h1, h2]

theorem keysOf_evalSkills (doc : List Node) (c : Checklist) :
    keysOf (evalSkills doc c) = keysOf c := by
  unfold evalSkills
  split <;> simp [keysOf_addDetail, keysOf_setPass, keysOf_ite]

/-- The keys the contact pass writes. -/
def contactWrittenKeys : List String :=
  ["contact_section", "contact_linkedin", "contact_github"]

theorem getItem_evalContact_ne (doc : List Node) (c : Checklist) (k : String)
    (h : ∀ x ∈ contactWrittenKeys, k ≠ x) :
    getItem (evalContact doc c) k = getItem c k := by
  have h1 : k ≠ "contact_section" := h _ (by simp [contactWrittenKeys])
  have h2 : k ≠ "contact_linkedin" := h _ (by simp [contactWrittenKeys])
  have h3 : k ≠ "contact_github" := h _ (by simp [contactWrittenKeys])
  unfold evalContact
  split <;>
    simp [getItem_addDetail_ne, getItem_setPass_ne, getItem_ite, h1, h2, h3]

theorem keysOf_evalContact (doc : List Node) (c : Checklist) :
    keysOf (evalContact doc c) = keysOf c := by
  unfold evalContact
  split <;> simp [keysOf_addDetail, keysOf_setPass, keysOf_ite]

theorem except_bind_ok {ε α β : Type} (a : α) (f : α → Except ε β) :
    (Except.ok a >>= f) = f a := rfl

theorem except_bind_error {ε α β : Type} (e : ε) (f : α → Except ε β) :
    ((Except.error e : Except ε α) >>= f) = Except.error e := rfl

theorem except_pure_eq {ε α : Type} (a : α) :
    (pure a : Except ε α) = Except.ok a := rfl

theorem getItem_linksCorrectBlock_ne (doc : List Node) (c : Checklist)
    (k : String) (h : k ≠ "links_correct") :
    getItem (linksCorrectBlock doc c) k = getItem c k := by
  unfold linksCorrectBlock
  simp [getItem_addDetail_ne, getItem_setPass_ne, getItem_ite,
    getItem_detfold_ne, h]

theorem keysOf_linksCorrectBlock (doc : List Node) (c : Checklist) :
    keysOf (linksCorrectBlock doc c) = keysOf c := by
  unfold linksCorrectBlock
  simp [keysOf_addDetail, keysOf_setPass, keysOf_ite, keysOf_detfold]

theorem getItem_responsiveBlock_ne (doc : List Node) (html : Str)
    (c : Checklist) (k : String) (h : k ≠ "responsive_design") :
    getItem (responsiveBlock doc html c) k = getItem c k := by
  unfold responsiveBlock
  simp [getItem_addDetail_ne, getItem_setPass_ne, getItem_ite, h]

theorem keysOf_responsiveBlock (doc : List Node) (html : Str) (c : Checklist) :
    keysOf (responsiveBlock doc html c) = keysOf c := by
  unfold responsiveBlock
  simp [keysOf_addDetail, keysOf_setPass, keysOf_ite]

theorem getItem_navbarBlock_ne (doc : List Node) (c : Checklist)
    (k : String) (h : k ≠ "single_page_navbar") :
    getItem (navbarBlock doc c) k = getItem c k := by
  unfold navbarBlock
  split <;>
    simp [getItem_addDetail_ne, getItem_setPass_ne, getItem_ite, h]

theorem keysOf_navbarBlock (doc : List Node) (c : Checklist) :
    keysOf (navbarBlock doc c) = keysOf c := by
  unfold navbarBlock
  split <;> simp [keysOf_addDetail, keysOf_setPass, keysOf_ite]

theorem getItem_designBlock_ne (doc : List Node) (c : Checklist)
    (k : String) (h : k ≠ "no_design_issues") :
    getItem (designBlock doc c) k = getItem c k := by
  unfold designBlock
  simp [getItem_addDetail_ne, getItem_setPass_ne, getItem_ite, h]

theorem keysOf_designBlock (doc : List Node) (c : Checklist) :
    keysOf (designBlock doc c) = keysOf c := by
  unfold designBlock
  simp [keysOf_addDetail, keysOf_setPass, keysOf_ite]

theorem getItem_grammarBlock_ne (doc : List Node) (c : Checklist)
    (k : String) (h : k ≠ "grammar_checked") :
    getItem (grammarBlock doc c) k = getItem c k := by
  unfold grammarBlock
  simp [getItem_addDetail_ne, getItem_setPass_ne, getItem_ite, h]

theorem keysOf_grammarBlock (doc : List Node) (c : Checklist) :
    keysOf (grammarBlock doc c) = keysOf c := by
  unfold grammarBlock
  simp [keysOf_addDetail, keysOf_setPass, keysOf_ite]

theorem getItem_externalLinksReport_ne (links : List Loc) (c : Checklist)
    (k : String) (h : k ≠ "external_links_new_tab") :
    getItem (externalLinksReport links c) k = getItem c k := by
  unfold externalLinksReport
  simp [getItem_addDetail_ne, getItem_setPass_ne, getItem_ite,
    getItem_detfold_ne, h]

theorem keysOf_externalLinksReport (links : List Loc) (c : Checklist) :
    keysOf (externalLinksReport links c) = keysOf c := by
  unfold externalLinksReport
  simp [keysOf_addDetail, keysOf_setPass, keysOf_ite, keysOf_detfold]

theorem getItem_externalLinksBlock_ne (doc : List Node) (url : Str)
    (c r : Checklist) (k : String) (h : k ≠ "external_links_new_tab")
    (hok : externalLinksBlock doc url c = .ok r) :
    getItem r k = getItem c k := by
  unfold externalLinksBlock at hok
  cases hE : externalLinksOf doc url with
  | error e => rw [hE, except_bind_error] at hok; cases hok
  | ok links =>
      rw [hE, except_bind_ok, except_pure_eq] at hok
      injection hok with hok; subst hok
      exact getItem_externalLinksReport_ne links c k h

theorem keysOf_externalLinksBlock (doc : List Node) (url : Str)
    (c r : Checklist) (hok : externalLinksBlock doc url c = .ok r) :
    keysOf r = keysOf c := by
  unfold externalLinksBlock at hok
  cases hE : externalLinksOf doc url with
  | error e => rw [hE, except_bind_error] at hok; cases hok
  | ok links =>
      rw [hE, except_bind_ok, except_pure_eq] at hok
      injection hok with hok; subst hok
      exact keysOf_externalLinksReport links c

theorem getItem_professionalReport_ne (parsed : UrlParts) (url : Str)
    (c : Checklist) (k : String) (h : k ≠ "professional_url") :
    getItem (professionalReport parsed url c) k = getItem c k := by
  unfold professionalReport
  simp [getItem_addDetail_ne, getItem_setPass_ne, getItem_ite, h]

theorem keysOf_professionalReport (parsed : UrlParts) (url : Str)
    (c : Checklist) :
    keysOf (professionalReport parsed url c) = keysOf c := by
  unfold professionalReport
  simp [keysOf_addDetail, keysOf_setPass, keysOf_ite]

theorem getItem_professionalBlock_ne (url : Str) (c r : Checklist)
    (k : String) (h : k ≠ "professional_url")
    (hok : professionalBlock url c = .ok r) :
    getItem r k = getItem c k := by
  unfold professionalBlock at hok
  cases hu : urlsplitPy url with
  | error e => rw [hu, except_bind_error] at hok; cases hok
  | ok parts =>
      rw [hu, except_bind_ok, except_pure_eq] at hok
      injection hok with hok; subst hok
      exact getItem_professionalReport_ne parts url c k h

theorem keysOf_professionalBlock (url : Str) (c r : Checklist)
    (hok : professionalBlock url c = .ok r) :
    keysOf r = keysOf c := by
  unfold professionalBlock at hok
  cases hu : urlsplitPy url with
  | error e => rw [hu, except_bind_error] at hok; cases hok
  | ok parts =>
      rw [hu, except_bind_ok, except_pure_eq] at hok
      injection hok with hok; subst hok
      exact keysOf_professionalReport parts url c

/-- The keys the technical pass writes. -/
def techWrittenKeys : List String :=
  ["links_correct", "responsive_design", "professional_url",
   "grammar_checked", "single_page_navbar", "no_design_issues",
   "external_links_new_tab"]

theorem getItem_evalTechnical_ne (doc : List Node) (html url : Str)
    (c r : Checklist) (k : String) (h : ∀ x ∈ techWrittenKeys, k ≠ x)
    (hok : evalTechnical doc html url c = .ok r) :
    getItem r k = getItem c k := by
  have h1 : k ≠ "links_correct" := h _ (by simp [techWrittenKeys])
  have h2 : k ≠ "responsive_design" := h _ (by simp [techWrittenKeys])
  have h3 : k ≠ "professional_url" := h _ (by simp [techWrittenKeys])
  have h4 : k ≠ "grammar_checked" := h _ (by simp [techWrittenKeys])
  have h5 : k ≠ "single_page_navbar" := h _ (by simp [techWrittenKeys])
  have h6 : k ≠ "no_design_issues" := h _ (by simp [techWrittenKeys])
  have h7 : k ≠ "external_links_new_tab" := h _ (by simp [techWrittenKeys])
  unfold evalTechnical at hok
  dsimp only [] at hok
  cases hE : externalLinksBlock doc url (linksCorrectBlock doc c) with
  | error e => rw [hE, except_bind_error] at hok; cases hok
  | ok c2 =>
      rw [hE, except_bind_ok] at hok
      cases hP : professionalBlock url (responsiveBlock doc html c2) with
      | error e => rw [hP, except_bind_error] at hok; cases hok
      | ok c4 =>
          rw [hP, except_bind_ok, except_pure_eq] at hok
          injection hok with hok; subst hok
          rw [getItem_grammarBlock_ne _ _ _ h4, getItem_designBlock_ne _ _ _ h6,
            getItem_navbarBlock_ne _ _ _ h5,
            getItem_professionalBlock_ne _ _ _ _ h3 hP,
            getItem_responsiveBlock_ne _ _ _ _ h2,
            getItem_externalLinksBlock_ne _ _ _ _ _ h7 hE,
            getItem_linksCorrectBlock_ne _ _ _ h1]

theorem keysOf_evalTechnical (doc : List Node) (html url : Str)
    (c r : Checklist) (hok : evalTechnical doc html url c = .ok r) :
    keysOf r = keysOf c := by
  unfold evalTechnical at hok
  dsimp only [] at hok
  cases hE : externalLinksBlock doc url (linksCorrectBlock doc c) with
  | error e => rw [hE, except_bind_error] at hok; cases hok
  | ok c2 =>
      rw [hE, except_bind_ok] at hok
      cases hP : professionalBlock url (responsiveBlock doc html c2) with
      | error e => rw [hP, except_bind_error] at hok; cases hok
      | ok c4 =>
          rw [hP, except_bind_ok, except_pure_eq] at hok
          injection hok with hok; subst hok
          rw [keysOf_grammarBlock, keysOf_designBlock, keysOf_navbarBlock,
            keysOf_professionalBlock _ _ _ hP, keysOf_responsiveBlock,
            keysOf_externalLinksBlock _ _ _ _ hE, keysOf_linksCorrectBlock]

/-! ## Whole-evaluation composition lemmas -/

/-- `evaluate` unfolded into its pass pipeline. -/
theorem evaluate_eq (doc : List Node) (html url : Str) :
    evaluate doc html url =
      evalTechnical doc html url
        (evalContact doc (evalSkills doc (evalProjects doc
          (evalAbout doc initChecklist)))) := rfl

theorem keysOf_evaluate (doc : List Node) (html url : Str) (c : Checklist)
    (hok : evaluate doc html url = .ok c) : keysOf c = checklistParams := by
  rw [evaluate_eq] at hok
  rw [keysOf_evalTechnical _ _ _ _ _ hok, keysOf_evalContact, keysOf_evalSkills,
    keysOf_evalProjects, keysOf_evalAbout, keysOf_initChecklist]

/-- A key no pass after the about pass writes reads through to the
about stage. -/
theorem getItem_evaluate_to_about (doc : List Node) (html url : Str)
    (c : Checklist) (k : String)
    (h1 : ∀ x ∈ projectsWrittenKeys, k ≠ x)
    (h2 : ∀ x ∈ skillsWrittenKeys, k ≠ x)
    (h3 : ∀ x ∈ contactWrittenKeys, k ≠ x)
    (h4 : ∀ x ∈ techWrittenKeys, k ≠ x)
    (hok : evaluate doc html url = .ok c) :
    getItem c k = getItem (evalAbout doc initChecklist) k := by
  rw [evaluate_eq] at hok
  rw [getItem_evalTechnical_ne _ _ _ _ _ _ h4 hok,
    getItem_evalContact_ne _ _ _ h3, getItem_evalSkills_ne _ _ _ h2,
    getItem_evalProjects_ne _ _ _ h1]

/-- `links_correct` in the final checklist is whatever the links block
produced. -/
theorem getItem_evalTechnical_linksCorrect (doc : List Node) (html url : Str)
    (c r : Checklist) (hok : evalTechnical doc html url c = .ok r) :
    getItem r "links_correct" = getItem (linksCorrectBlock doc c) "links_correct" := by
  unfold evalTechnical at hok
  dsimp only [] at hok
  cases hE : externalLinksBlock doc url (linksCorrectBlock doc c) with
  | error e => rw [hE, except_bind_error] at hok; cases hok
  | ok c2 =>
      rw [hE, except_bind_ok] at hok
      cases hP : professionalBlock url (responsiveBlock doc html c2) with
      | error e => rw [hP, except_bind_error] at hok; cases hok
      | ok c4 =>
          rw [hP, except_bind_ok, except_pure_eq] at hok
          injection hok with hok; subst hok
          rw [getItem_grammarBlock_ne _ _ _ (by decide),
            getItem_designBlock_ne _ _ _ (by decide),
            getItem_navbarBlock_ne _ _ _ (by decide),
            getItem_professionalBlock_ne _ _ _ _ (by decide) hP,
            getItem_responsiveBlock_ne _ _ _ _ (by decide),
            getItem_externalLinksBlock_ne _ _ _ _ _ (by decide) hE]

/-- With no links on the page, the links block is skipped entirely. -/
theorem linksCorrectBlock_empty (doc : List Node) (c : Checklist)
    (hlinks : allHrefLinks doc = []) : linksCorrectBlock doc c = c := by
  unfold linksCorrectBlock
  rw [hlinks]
  rfl

/-! ## Rounding bound for the pass-ratio score -/

theorem pyRound_le (q d : Nat) (hd : 0 < d) (h : q ≤ 100 * d) :
    pyRound q d ≤ 100 := by
  have hdiv : q / d ≤ 100 := by
    calc q / d ≤ 100 * d / d := Nat.div_le_div_right h
    _ = 100 := Nat.mul_div_cancel 100 hd
  have hstrict : 1 ≤ q % d → q / d < 100 := by
    intro hr
    have hq : q < 100 * d := by
      rcases Nat.lt_or_ge q (100 * d) with h' | h'
      · exact h'
      · have heq : q = 100 * d := le_antisymm h h'
        have : q % d = 0 := by rw [heq]; exact Nat.mul_mod_left 100 d
        omega
    exact Nat.div_lt_of_lt_mul (by rwa [Nat.mul_comm] at hq)
  unfold pyRound
  dsimp only []
  split
  · exact hdiv
  · split
    · next h1 h2 => have := hstrict (by omega); omega
    · split
      · exact hdiv
      · next h1 h2 h3 =>
          have hr : 1 ≤ q % d := by omega
          have := hstrict hr
          omega

theorem calculateScore_le (c : Checklist) : calculateScore c ≤ 100 := by
  unfold calculateScore
  split
  · omega
  · next hne =>
      dsimp only []
      split
      · next hpos =>
          apply pyRound_le _ _ hpos
          calc c.countP (fun p => p.2.pass) * 100
              ≤ c.length * 100 :=
                Nat.mul_le_mul_right 100 (List.countP_le_length _)
          _ = 100 * c.length := Nat.mul_comm _ _
      · omega

/-! ## Projects-pass flag values -/

theorem analyzeProjectCard_hasImage (card : Loc) (i : Nat) :
    (analyzeProjectCard card i).hasImage = hasImgIn card := rfl

theorem analyzeProjectCard_hasDescription (card : Loc) (i : Nat) :
    (analyzeProjectCard card i).hasDescription =
      decide (card.1.getTextStrip.length > 50) := rfl

theorem analyzeProjectCard_hasGithub (card : Loc) (i : Nat) :
    (analyzeProjectCard card i).hasGithub = cardHasGithub card := rfl

theorem analyzeProjectCard_hasDeployed (card : Loc) (i : Nat) :
    (analyzeProjectCard card i).hasDeployed = cardHasDeployed card := rfl

theorem analyzeProjectCard_hasTechStack (card : Loc) (i : Nat) :
    (analyzeProjectCard card i).hasTechStack = cardHasTechStack card := rfl

theorem any_enumFrom {α : Type} (f : α → Bool) (l : List α) (n : Nat) :
    ((List.enumFrom n l).any fun p => f p.2) = l.any f := by
  induction l generalizing n with
  | nil => rfl
  | cons x t ih => simp [List.enumFrom, ih]

/-- An OR-aggregated analysis flag over the enumerated cards equals the
`any` of the corresponding per-card feature. -/
theorem any_analyses (cards : List Loc) (n : Nat) (f : CardAnalysis → Bool)
    (g : Loc → Bool) (hfg : ∀ card i, f (analyzeProjectCard card i) = g card) :
    ((List.enumFrom n cards).map (fun p => analyzeProjectCard p.2 p.1)).any f =
      cards.any g := by
  induction cards generalizing n with
  | nil => rfl
  | cons x t ih => simp [List.enumFrom, hfg, ih]

/-- In the projects pass, the five OR-aggregated flags are the `any` of the
per-card features over the detected cards. -/
theorem getPass_evalProjects_flags (doc : List Node) (c : Checklist)
    (sec : Loc) (hsec : findSection doc projectsKeywords = some sec)
    (hkeys : keysOf c = checklistParams) :
    getPass (evalProjects doc c) "projects_links" =
      some ((findCards sec).any cardHasGithub) ∧
    getPass (evalProjects doc c) "projects_deployed" =
      some ((findCards sec).any cardHasDeployed) ∧
    getPass (evalProjects doc c) "projects_hero_image" =
      some ((findCards sec).any hasImgIn) ∧
    getPass (evalProjects doc c) "projects_tech_stack" =
      some ((findCards sec).any cardHasTechStack) ∧
    getPass (evalProjects doc c) "projects_summary" =
      some ((findCards sec).any
        (fun card => decide (card.1.getTextStrip.length > 50))) := by
  unfold evalProjects
  rw [hsec]
  dsimp only []
  refine ⟨?_, ?_, ?_, ?_, ?_⟩ <;>
  · simp +decide only [getPass_ite, getPass_addDetail, getPass_detfold,
      getPass_setPass_ne, ite_self, Ne, not_false_eq_true]
    rw [getPass_setPass_mem]
    · rw [any_analyses _ 1 _ _ (fun card i => rfl)]; rfl
    · simp +decide [keysOf_setPass, keysOf_detfold, keysOf_ite,
        keysOf_addDetail, hkeys, checklistParams]

/-! ## Claims -/

/-- C1 counterexample: on a concrete input the checklist `evaluate` returns
has 26 keys, not the 27 the claim states — the schema of
`_initialize_checklist` (and the key list of spec §6) has 26 entries, the
"27" in prose being a miscount (the Technical block has 7 checks, not 8). -/
theorem schema_key_count_is_26 :
    evaluate [] (S "") (S "https://example.com") = .ok emptyPageChecklist ∧
    (keysOf emptyPageChecklist).length = 26 ∧
    (keysOf emptyPageChecklist).length ≠ 27 :=
  ⟨rfl, by decide, by decide⟩

/-- C1 (amended): for every document, HTML text and URL on which `evaluate`
returns, the returned checklist's key set equals exactly the fixed schema of
`_initialize_checklist` — which has 26 keys — and every key starts from the
default `{pass: false, evidence: []}` so a check that never fires leaves
that default in place. -/
theorem evaluate_schema_keys (doc : List Node) (html url : Str)
    (c : Checklist) (hok : evaluate doc html url = .ok c) :
    keysOf c = checklistParams ∧ checklistParams.length = 26 ∧
      ∀ k ∈ checklistParams, getItem initChecklist k = some ⟨false, []⟩ :=
  ⟨keysOf_evaluate doc html url c hok, by decide, by decide⟩

theorem evaluate_schema_keys_witness :
    keysOf emptyPageChecklist = checklistParams ∧
    checklistParams.length = 26 ∧
      ∀ k ∈ checklistParams, getItem initChecklist k = some ⟨false, []⟩ :=
  evaluate_schema_keys [] (S "") (S "https://example.com")
    emptyPageChecklist rfl

/-- C2: `RubricEngine.evaluate` is deterministic — two calls on the same
parsed document, HTML text and URL return the same checklist (same keys,
same pass booleans, same detail lists in the same order).  The engine is a
pure function of its inputs: it reads no global mutable state, clock or
randomness, which the embedding reflects. -/
theorem evaluate_deterministic (doc : List Node) (html url : Str)
    (c1 c2 : Checklist) (h1 : evaluate doc html url = .ok c1)
    (h2 : evaluate doc html url = .ok c2) : c1 = c2 := by
  rw [h1] at h2
  injection h2

theorem evaluate_deterministic_witness :
    emptyPageChecklist = emptyPageChecklist :=
  evaluate_deterministic [] (S "") (S "https://example.com")
    emptyPageChecklist emptyPageChecklist rfl rfl

/-- C3: `_calculate_score` equals `round(100 * passed / total)` (Python's
banker's rounding over the exact quotient), is always an integer in
[0, 100], and is 0 on the empty checklist. -/
theorem calculateScore_spec :
    (∀ c : Checklist, calculateScore c =
      if c.isEmpty then 0
      else pyRound (100 * c.countP (fun p => p.2.pass)) c.length) ∧
    (∀ c : Checklist, calculateScore c ≤ 100) ∧
    calculateScore [] = 0 := by
  refine ⟨?_, calculateScore_le, rfl⟩
  intro c
  unfold calculateScore
  by_cases hc : c.isEmpty
  · simp [hc]
  · have hlen : 0 < c.length := by
      cases c with
      | nil => simp at hc
      | cons x t => simp
    simp [hc, hlen, Nat.mul_comm]

/-- C4 counterexample: the `sections` criterion weighs 10, not the claimed
15, and with exactly one project the `projects` criterion contributes 5 —
a strictly partial amount between 0 and its full weight 20. -/
theorem scorer_weights_cex :
    criterionWeight "sections" = some 10 ∧
    ¬ criterionWeight "sections" = some 15 ∧
    weightedScore projectsCriterion oneProjectResults = 5 ∧
    ¬ weightedScore projectsCriterion oneProjectResults = 0 ∧
    ¬ weightedScore projectsCriterion oneProjectResults = 20 :=
  ⟨rfl, by decide, rfl, by decide, by decide⟩

/-- C4 (amended): the weighted-criteria weights are sections 10%, about
10%, projects 20%, skills 10%, contact 10%, links 5%, responsiveness 10%,
url 5%, design 10%, external-links 10%, summing to 100; every category
except `projects` contributes its full weight when its completeness
predicate holds and zero otherwise, while `projects` contributes
`min(20, 5 * project_count)` — partial credit for one or two projects. -/
theorem scorer_weights_amended :
    (scorerCriteria.map (fun p => (p.1, p.2.weight)) =
      [("sections", 10), ("about_section", 10), ("projects", 20),
       ("skills", 10), ("contact", 10), ("links", 5), ("responsiveness", 10),
       ("url_professionalism", 5), ("design", 10), ("external_links", 10)]) ∧
    totalWeight = 100 ∧
    (∀ r : ValidationResults, ∀ p ∈ scorerCriteria, p.1 ≠ "projects" →
      weightedScore p.2 r = 0 ∨ weightedScore p.2 r = p.2.weight) ∧
    (∀ r : ValidationResults,
      weightedScore projectsCriterion r = min 20 (r.projectCount * 5)) := by
  refine ⟨by decide, by decide, ?_, ?_⟩
  · intro r p hp hne
    fin_cases hp
    · cases hb : r.hasAllSections <;> simp [weightedScore, sectionsCriterion, hb]
    · cases hb : r.aboutComplete <;> simp [weightedScore, aboutCriterion, hb]
    · exact absurd rfl hne
    · cases hb : r.skillsComplete <;> simp [weightedScore, skillsCriterion, hb]
    · cases hb : r.contactComplete <;> simp [weightedScore, contactCriterion, hb]
    · cases hb : r.linksComplete <;> simp [weightedScore, linksCriterion, hb]
    · cases hb : r.isResponsive <;>
        simp [weightedScore, responsivenessCriterion, hb]
    · cases hb : r.urlIsProfessional <;> simp [weightedScore, urlCriterion, hb]
    · cases hb : r.designComplete <;> simp [weightedScore, designCriterion, hb]
    · cases hb : r.externalComplete <;> simp [weightedScore, externalCriterion, hb]
  · intro r
    show min 20 (r.projectCount * 5) * 20 / 20 = min 20 (r.projectCount * 5)
    exact Nat.mul_div_cancel _ (by omega)

theorem scorer_weights_amended_witness :
    (weightedScore sectionsCriterion oneProjectResults = 0 ∨
      weightedScore sectionsCriterion oneProjectResults =
        sectionsCriterion.weight) ∧
    weightedScore projectsCriterion oneProjectResults =
      min 20 (oneProjectResults.projectCount * 5) :=
  ⟨scorer_weights_amended.2.2.1 oneProjectResults
      ("sections", sectionsCriterion) (by simp [scorerCriteria]) (by decide),
   scorer_weights_amended.2.2.2 oneProjectResults⟩

/-- C5: `_find_section` tries its six strategies (exact id, exact class,
regex id/class, heading text, data attribute, content heuristic) in that
fixed order with first success winning: when strategy k finds a node and no
earlier strategy matches, the locator returns that node; when every
strategy misses it returns `none` (a total function — no exception). -/
theorem locator_cascade :
    (∀ (doc : List Node) (kws : List Str) (k : Nat) (l : Loc), k < 6 →
      stratAt k doc kws = some l →
      (∀ j, j < k → stratAt j doc kws = none) →
      findSection doc kws = some l) ∧
    (∀ (doc : List Node) (kws : List Str),
      (∀ j, j < 6 → stratAt j doc kws = none) → findSection doc kws = none) := by
  constructor
  · intro doc kws k l hk hsome hprev
    interval_cases k
    · simp only [stratAt] at hsome
      unfold findSection
      simp [hsome]
    · have h0 : strat1 doc kws = none := hprev 0 (by omega)
      simp only [stratAt] at hsome
      unfold findSection
      simp [h0, hsome]
    · have h0 : strat1 doc kws = none := hprev 0 (by omega)
      have h1 : strat2 doc kws = none := hprev 1 (by omega)
      simp only [stratAt] at hsome
      unfold findSection
      simp [h0, h1, hsome]
    · have h0 : strat1 doc kws = none := hprev 0 (by omega)
      have h1 : strat2 doc kws = none := hprev 1 (by omega)
      have h2 : strat3 doc kws = none := hprev 2 (by omega)
      simp only [stratAt] at hsome
      unfold findSection
      simp [h0, h1, h2, hsome]
    · have h0 : strat1 doc kws = none := hprev 0 (by omega)
      have h1 : strat2 doc kws = none := hprev 1 (by omega)
      have h2 : strat3 doc kws = none := hprev 2 (by omega)
      have h3 : strat4 doc kws = none := hprev 3 (by omega)
      simp only [stratAt] at hsome
      unfold findSection
      simp [h0, h1, h2, h3, hsome]
    · have h0 : strat1 doc kws = none := hprev 0 (by omega)
      have h1 : strat2 doc kws = none := hprev 1 (by omega)
      have h2 : strat3 doc kws = none := hprev 2 (by omega)
      have h3 : strat4 doc kws = none := hprev 3 (by omega)
      have h4 : strat5 doc kws = none := hprev 4 (by omega)
      simp only [stratAt] at hsome
      unfold findSection
      simp [h0, h1, h2, h3, h4, hsome]
  · intro doc kws hall
    have h0 : strat1 doc kws = none := hall 0 (by omega)
    have h1 : strat2 doc kws = none := hall 1 (by omega)
    have h2 : strat3 doc kws = none := hall 2 (by omega)
    have h3 : strat4 doc kws = none := hall 3 (by omega)
    have h4 : strat5 doc kws = none := hall 4 (by omega)
    have h5 : strat6 doc kws = none := hall 5 (by omega)
    unfold findSection
    simp [h0, h1, h2, h3, h4, h5]

theorem locator_cascade_witness :
    findSection strat3Doc aboutKeywords =
      some (Node.elem "div" 7 (some (S "my-about-x")) [] [] .nil, []) ∧
    findSection [] aboutKeywords = none := by
  constructor
  · exact locator_cascade.1 strat3Doc aboutKeywords 2 _ (by omega) rfl
      (fun j hj => by interval_cases j <;> rfl)
  · exact locator_cascade.2 [] aboutKeywords
      (fun j hj => by interval_cases j <;> rfl)

/-- C6: the projects flags aggregate with OR semantics over the detected
cards — each of `projects_links`, `projects_deployed`,
`projects_hero_image`, `projects_tech_stack`, `projects_summary` passes iff
at least one card has the corresponding feature; and concretely, on a page
with three cards of which exactly one holds a GitHub link,
`projects_links` passes. -/
theorem projects_or_aggregation :
    (∀ (doc : List Node) (html url : Str) (c : Checklist) (sec : Loc),
      evaluate doc html url = .ok c →
      findSection doc projectsKeywords = some sec →
      ((getPass c "projects_links" = some true ↔
          ∃ card ∈ findCards sec, cardHasGithub card = true) ∧
       (getPass c "projects_deployed" = some true ↔
          ∃ card ∈ findCards sec, cardHasDeployed card = true) ∧
       (getPass c "projects_hero_image" = some true ↔
          ∃ card ∈ findCards sec, hasImgIn card = true) ∧
       (getPass c "projects_tech_stack" = some true ↔
          ∃ card ∈ findCards sec, cardHasTechStack card = true) ∧
       (getPass c "projects_summary" = some true ↔
          ∃ card ∈ findCards sec, card.1.getTextStrip.length > 50))) ∧
    ((findCards proj3Sec).length = 3 ∧
      (findCards proj3Sec).countP (fun card => cardHasGithub card) = 1 ∧
      getPass proj3Checklist "projects_links" = some true) := by
  constructor
  · intro doc html url c sec hok hsec
    have hgp : ∀ k : String, (∀ x ∈ skillsWrittenKeys, k ≠ x) →
        (∀ x ∈ contactWrittenKeys, k ≠ x) →
        (∀ x ∈ techWrittenKeys, k ≠ x) →
        getPass c k =
          getPass (evalProjects doc (evalAbout doc initChecklist)) k := by
      intro k hs hc ht
      rw [evaluate_eq] at hok
      unfold getPass
      rw [getItem_evalTechnical_ne _ _ _ _ _ _ ht hok,
        getItem_evalContact_ne _ _ _ hc, getItem_evalSkills_ne _ _ _ hs]
    have hkeys : keysOf (evalAbout doc initChecklist) = checklistParams := by
      rw [keysOf_evalAbout, keysOf_initChecklist]
    obtain ⟨f1, f2, f3, f4, f5⟩ :=
      getPass_evalProjects_flags doc (evalAbout doc initChecklist) sec hsec hkeys
    refine ⟨?_, ?_, ?_, ?_, ?_⟩
    · rw [hgp _ (by decide) (by decide) (by decide), f1]
      simp [List.any_eq_true]
    · rw [hgp _ (by decide) (by decide) (by decide), f2]
      simp [List.any_eq_true]
    · rw [hgp _ (by decide) (by decide) (by decide), f3]
      simp [List.any_eq_true]
    · rw [hgp _ (by decide) (by decide) (by decide), f4]
      simp [List.any_eq_true]
    · rw [hgp _ (by decide) (by decide) (by decide), f5]
      simp [List.any_eq_true]
  · exact ⟨rfl, rfl, rfl⟩

theorem projects_or_aggregation_witness :
    getPass proj3Checklist "projects_links" = some true ↔
      ∃ card ∈ findCards proj3Sec, cardHasGithub card = true :=
  (projects_or_aggregation.1 projectsDoc3 (S "") (S "https://example.com")
    proj3Checklist proj3Sec rfl rfl).1

/-- C7: `_find_project_cards` never returns more than 10 cards, and when
the detection stages accept more than 10 plausible cards it returns exactly
10. -/
theorem card_cap :
    (∀ sec : Loc, (findCards sec).length ≤ 10) ∧
    (∀ sec : Loc, 10 < (findCardsFull sec).length →
      (findCards sec).length = 10) := by
  constructor
  · intro sec
    unfold findCards
    rw [List.length_take]
    omega
  · intro sec h
    unfold findCards
    rw [List.length_take]
    omega

theorem card_cap_witness : (findCards bigSection).length = 10 :=
  card_cap.2 bigSection (by decide)

/-- C8 counterexample: on a page whose only anchor has the href
`http://[`, CPython's `urlparse` (called in `_evaluate_technical`'s
external-link comprehension) raises `ValueError("Invalid IPv6 URL")`;
`evaluate` has no try/except, so it returns no checklist at all —
contradicting the claim that the exception is caught at the evaluator
boundary and a complete checklist returned. -/
theorem evaluate_uncaught_error_cex :
    evaluate badHrefDoc (S "") (S "https://example.com") =
      Except.error (S "Invalid IPv6 URL") := rfl

/-- C8 (amended): when an evaluation pass raises, `evaluate` propagates the
exception to its caller; it is the surrounding coordinator
(`_run_rubric_analysis` in `analyzer.py`) that catches it — and it
substitutes the empty dict `{}`, not a complete checklist with the affected
key failed. -/
theorem evaluate_error_propagates (doc : List Node) (html url e : Str)
    (h : evaluate doc html url = .error e) :
    runRubricAnalysis doc html url = [] := by
  unfold runRubricAnalysis
  rw [h]

theorem evaluate_error_propagates_witness :
    runRubricAnalysis badHrefDoc (S "") (S "https://example.com") = [] :=
  evaluate_error_propagates badHrefDoc (S "") (S "https://example.com")
    (S "Invalid IPv6 URL") rfl

/-- C9: when the section locator finds no About section, the four
sub-checks `about_name`, `about_photo`, `about_intro`,
`about_professional_photo` are all `pass = false` in the returned
checklist — they are only evaluated inside the located-section branch. -/
theorem about_subchecks_require_section (doc : List Node) (html url : Str)
    (c : Checklist) (hok : evaluate doc html url = .ok c)
    (hnone : findSection doc aboutKeywords = none) :
    getPass c "about_name" = some false ∧
    getPass c "about_photo" = some false ∧
    getPass c "about_intro" = some false ∧
    getPass c "about_professional_photo" = some false := by
  have habout : evalAbout doc initChecklist =
      addDetail initChecklist "about_section"
        (S "[FAIL] About section not found") := by
    unfold evalAbout
    rw [hnone]
  have key : ∀ k : String, (∀ x ∈ projectsWrittenKeys, k ≠ x) →
      (∀ x ∈ skillsWrittenKeys, k ≠ x) →
      (∀ x ∈ contactWrittenKeys, k ≠ x) →
      (∀ x ∈ techWrittenKeys, k ≠ x) → k ≠ "about_section" →
      getItem c k = getItem initChecklist k := by
    intro k h1 h2 h3 h4 h5
    rw [getItem_evaluate_to_about doc html url c k h1 h2 h3 h4 hok, habout,
      getItem_addDetail_ne _ _ _ _ h5]
  refine ⟨?_, ?_, ?_, ?_⟩ <;>
    · unfold getPass
      rw [key _ (by decide) (by decide) (by decide) (by decide) (by decide)]
      rfl

theorem about_subchecks_require_section_witness :
    getPass emptyPageChecklist "about_name" = some false ∧
    getPass emptyPageChecklist "about_photo" = some false ∧
    getPass emptyPageChecklist "about_intro" = some false ∧
    getPass emptyPageChecklist "about_professional_photo" = some false :=
  about_subchecks_require_section [] (S "") (S "https://example.com")
    emptyPageChecklist rfl rfl

/-- C10: on a document with no anchor carrying an href attribute, the whole
`links_correct` block is skipped, so the returned checklist reports
`links_correct` as a failure with an empty evidence list — the vacuous
no-links case is not a pass. -/
theorem links_correct_vacuous_fail (doc : List Node) (html url : Str)
    (c : Checklist) (hok : evaluate doc html url = .ok c)
    (hlinks : allHrefLinks doc = []) :
    getItem c "links_correct" = some ⟨false, []⟩ := by
  rw [evaluate_eq] at hok
  rw [getItem_evalTechnical_linksCorrect _ _ _ _ _ hok,
    linksCorrectBlock_empty _ _ hlinks,
    getItem_evalContact_ne _ _ _ (by decide),
    getItem_evalSkills_ne _ _ _ (by decide),
    getItem_evalProjects_ne _ _ _ (by decide),
    getItem_evalAbout_ne _ _ _ (by decide)]
  decide

theorem links_correct_vacuous_fail_witness :
    getItem emptyPageChecklist "links_correct" = some ⟨false, []⟩ :=
  links_correct_vacuous_fail [] (S "") (S "https://example.com")
    emptyPageChecklist rfl rfl

end Portalyze
